import Mathlib

/-!
# Verification of the generated vocabulary object model (`packages/models/src/generated.ts`)

A shallow embedding of the generated schema.org-style object model: the
`EqualsResult` comparison combinators (`strictEquals`, `maybeEquals`,
`booleanEquals`, `arrayEquals`, `dateEquals`), the vocabulary classes
(`Thing`, `Role`, `Occupation`, `Person`, `Organization`, `QuantitiveValue`,
`ImageObject`, ...) with their `equals`, `hash`, `toJson` / `fromJson` and
`toRdf` / `fromRdf` operations, and the declaration-level property table.

Modelling conventions:
* `purify.Maybe` is `Option`; `purify.Either<L, R>` is `Except L R`.
* JavaScript numbers are `JsNum` (either `NaN` or a rational value), so that
  strict equality `===` — under which `NaN === NaN` is `false` — is faithful.
* JavaScript `Date` is `JsDate` (either an invalid date, whose `getTime()` is
  `NaN`, or an epoch-millisecond value).
* JSON strings in `YYYY-MM-DD` shape are represented by their day number
  (constructor `Json.date`); all other strings by `Json.str`.  The zod check
  `z.string()` accepts both, `z.string().date()` only the former.
* RDF literals carry a typed value (`LiteralValue`): the `YYYY-MM-DD` lexical
  form of an `xsd:date` literal is represented by its day number, a numeric
  literal by its rational value.
* The SHA-256 digest of `js-sha256` is a pure function of the sequence of
  `update` calls; it is modelled by an (otherwise irrelevant) function of that
  sequence, `sha256hex`.
* A hasher is the list of the string arguments of the `update` calls made so
  far; `hash` methods thread it in the source's order.
-/

set_option autoImplicit false

namespace Generated

/-- A JavaScript number: `NaN` or a (representable) numeric value, modelled by
a rational.  Strict equality `===` on `NaN` is `false`. -/
inductive JsNum where
  | nan
  | val (q : ℚ)
deriving DecidableEq, Repr

/-- JavaScript strict equality `===` on numbers. -/
def JsNum.strictEq : JsNum → JsNum → Bool
  | .nan, _ => false
  | .val _, .nan => false
  | .val a, .val b => a == b

/-- Lexical form of a number (`Number.prototype.toString`), used by
`QuantitiveValue.hash`. -/
def JsNum.lex : JsNum → String
  | .nan => "NaN"
  | .val q => toString q

/-- A JavaScript `Date`: invalid (its `getTime()` is `NaN`) or an epoch
millisecond timestamp. -/
inductive JsDate where
  | invalid
  | valid (ms : ℤ)
deriving DecidableEq, Repr

/-- `Date.prototype.getTime`. -/
def JsDate.getTime : JsDate → JsNum
  | .invalid => .nan
  | .valid ms => .val ms

/-- Milliseconds per day, for the `xsd:date` / `YYYY-MM-DD` serializations. -/
def msPerDay : ℤ := 86400000

/-- The calendar-day number of a date: the `YYYY-MM-DD` part of
`toISOString()` (i.e. `toISOString().replace(/T.*$/, "")`) determines and is
determined by this floor-division.  On an invalid date the source throws; the
total model returns day 0 there (the claims' hypotheses exclude that case). -/
def JsDate.dayNumber : JsDate → ℤ
  | .invalid => 0
  | .valid ms => Int.fdiv ms msPerDay

/-- `Date.prototype.toISOString`, as an injective encoding of the timestamp
(only equality of the strings matters to any claim). -/
def JsDate.isoStringRepr : JsDate → String
  | .invalid => "Invalid Date"
  | .valid ms => "iso:" ++ toString ms

/-- `new Date("YYYY-MM-DD")`: midnight UTC on the given day. -/
def dateOfDay (day : ℤ) : JsDate := .valid (day * msPerDay)

/-- The typed value of an RDF literal.  `date day` stands for the `YYYY-MM-DD`
lexical form with datatype `xsd:date`; `num q` for a numeric lexical form. -/
inductive LiteralValue where
  | str (s : String)
  | date (day : ℤ)
  | num (q : ℚ)
deriving DecidableEq, Repr

/-- The lexical form of a literal value (its `.value` in RDF/JS terms). -/
def LiteralValue.lex : LiteralValue → String
  | .str s => s
  | .date day => "date:" ++ toString day
  | .num q => toString q

/-- An RDF/JS term (`@rdfjs/types`): named node, blank node or literal.
`Term.equals` of the `n3` data factory is structural equality on the term
type, value, language and datatype, which coincides with `DecidableEq` here. -/
inductive RdfTerm where
  | namedNode (iri : String)
  | blankNode (id : String)
  | literal (value : LiteralValue) (language : String) (datatype : String)
deriving DecidableEq, Repr

/-- `Term.termType`. -/
def RdfTerm.termType : RdfTerm → String
  | .namedNode _ => "NamedNode"
  | .blankNode _ => "BlankNode"
  | .literal _ _ _ => "Literal"

/-- `Term.value`. -/
def RdfTerm.value : RdfTerm → String
  | .namedNode iri => iri
  | .blankNode id => id
  | .literal v _ _ => v.lex

/-! ## `EqualsResult` and the comparison combinators -/

/-- `EqualsResult.Unequal`, keeping the variant tags and the structurally
meaningful payloads (`elementIndex`, `propertyName`, nested unequal); the
`any`-typed left/right payloads of the source are not representable and are
not consulted by any claim. -/
inductive Unequal where
  | arrayElement (elementIndex : ℕ)
  | arrayLength
  | booleanEquals
  | leftError
  | leftNull
  | primitive
  | property (propertyName : String) (propertyValuesUnequal : Unequal)
  | rightError
  | rightNull
deriving DecidableEq, Repr

instance instDecEqExcept {ε α : Type} [DecidableEq ε] [DecidableEq α] :
    DecidableEq (Except ε α) := fun x y =>
  match x, y with
  | .ok a, .ok b =>
    if h : a = b then isTrue (congrArg _ h)
    else isFalse (fun hc => h (Except.ok.inj hc))
  | .error a, .error b =>
    if h : a = b then isTrue (congrArg _ h)
    else isFalse (fun hc => h (Except.error.inj hc))
  | .ok _, .error _ => isFalse (fun hc => Except.noConfusion hc)
  | .error _, .ok _ => isFalse (fun hc => Except.noConfusion hc)

/-- `EqualsResult = purify.Either<Unequal, true>`. -/
abbrev EqualsResult := Except Unequal Unit

/-- `EqualsResult.Equal`. -/
def EqualsResult.Equal : EqualsResult := .ok ()

/-- `EqualsResult.fromBooleanEqualsResult` restricted to a boolean argument
(when the argument is already an `EqualsResult` the source returns it
unchanged, which the embedding does by simply not wrapping). -/
def fromBooleanEqualsResult (b : Bool) : EqualsResult :=
  if b then EqualsResult.Equal else .error .booleanEquals

/-- `strictEquals` on strings (`===`). -/
def strictEqualsStr (l r : String) : EqualsResult :=
  fromBooleanEqualsResult (l == r)

/-- `strictEquals` on JavaScript numbers (`===`, so `NaN` is unequal to
itself). -/
def strictEqualsNum (l r : JsNum) : EqualsResult :=
  fromBooleanEqualsResult (JsNum.strictEq l r)

/-- `booleanEquals` on named nodes (via `n3` `Term.equals`, i.e. equality of
the IRIs). -/
def namedNodeEquals (l r : String) : EqualsResult :=
  fromBooleanEqualsResult (l == r)

/-- `booleanEquals` on arbitrary RDF terms (structural `Term.equals`). -/
def termEquals (l r : RdfTerm) : EqualsResult :=
  fromBooleanEqualsResult (l == r)

/-- `dateEquals`: compares `getTime()` with `===`. -/
def dateEquals (l r : JsDate) : EqualsResult :=
  fromBooleanEqualsResult (JsNum.strictEq l.getTime r.getTime)

/-- `maybeEquals`. -/
def maybeEquals {α : Type} (leftMaybe rightMaybe : Option α)
    (valueEquals : α → α → EqualsResult) : EqualsResult :=
  match leftMaybe, rightMaybe with
  | some l, some r => valueEquals l r
  | some _, none => .error .rightNull
  | none, some _ => .error .leftNull
  | none, none => EqualsResult.Equal

/-- The inner loop of `arrayEquals` for one left element: the right array is
scanned from the front, accumulating the unequal results and breaking at the
first equal element; the left element fails exactly when the accumulated
unequals cover the whole right array (`rightUnequals.length ===
rightArray.length`). -/
def leftElementFails {α : Type} (elementEquals : α → α → EqualsResult)
    (rightArray : List α) (leftElement : α) : Bool :=
  (rightArray.takeWhile (fun r => !(elementEquals leftElement r).isOk)).length
    == rightArray.length

/-- The outer loop of `arrayEquals` over the left array, tracking the left
element index. -/
def arrayEqualsGo {α : Type} (elementEquals : α → α → EqualsResult)
    (rightArray : List α) : List α → ℕ → EqualsResult
  | [], _ => EqualsResult.Equal
  | leftElement :: rest, leftElementIndex =>
    if leftElementFails elementEquals rightArray leftElement then
      .error (.arrayElement leftElementIndex)
    else
      arrayEqualsGo elementEquals rightArray rest (leftElementIndex + 1)

/-- `arrayEquals`. -/
def arrayEquals {α : Type} (leftArray rightArray : List α)
    (elementEquals : α → α → EqualsResult) : EqualsResult :=
  if leftArray.length ≠ rightArray.length then .error .arrayLength
  else arrayEqualsGo elementEquals rightArray leftArray 0

/-- `x.mapLeft(u => ({... propertyName, propertyValuesUnequal: u, type:
"Property"}))`, the per-property wrapper used by every `equals` method. -/
def propStep (propertyName : String) (r : EqualsResult) : EqualsResult :=
  r.mapError (fun u => .property propertyName u)

/-! ### Characterization of `arrayEquals` -/

theorem takeWhile_length_eq_iff {α : Type} (p : α → Bool) (l : List α) :
    (l.takeWhile p).length = l.length ↔ ∀ x ∈ l, p x = true := by
  induction l with
  | nil => simp
  | cons a l ih =>
    by_cases h : p a = true
    · simp [List.takeWhile_cons, h, ih]
    · have h' : p a = false := by
        cases hpa : p a
        · rfl
        · exact absurd hpa h
      have hlen : (l.takeWhile p).length ≤ l.length :=
        (List.takeWhile_sublist p).length_le
      simp only [List.takeWhile_cons, h', Bool.false_eq_true, if_false,
        List.length_nil, List.length_cons]
      constructor
      · intro hl
        omega
      · intro hall
        exact absurd (hall a (by simp)) h

theorem leftElementFails_iff {α : Type} (eq : α → α → EqualsResult)
    (r : List α) (x : α) :
    leftElementFails eq r x = true ↔ ∀ y ∈ r, (eq x y).isOk = false := by
  unfold leftElementFails
  rw [beq_iff_eq, takeWhile_length_eq_iff]
  simp

theorem arrayEqualsGo_eq_ok_iff {α : Type} (eq : α → α → EqualsResult)
    (r l : List α) (i : ℕ) :
    arrayEqualsGo eq r l i = EqualsResult.Equal ↔
      ∀ x ∈ l, ∃ y ∈ r, (eq x y).isOk = true := by
  induction l generalizing i with
  | nil => simp [arrayEqualsGo]
  | cons a l ih =>
    by_cases h : leftElementFails eq r a
    · have hnone : ¬∃ y ∈ r, (eq a y).isOk = true := by
        rcases (leftElementFails_iff eq r a).mp h with hall
        rintro ⟨y, hy, hok⟩
        simp [hall y hy] at hok
      simp only [arrayEqualsGo, if_pos h]
      constructor
      · intro hc; cases hc
      · intro hall
        exact absurd (hall a (by simp)) hnone
    · have hex : ∃ y ∈ r, (eq a y).isOk = true := by
        by_contra hne
        push_neg at hne
        exact h ((leftElementFails_iff eq r a).mpr (by
          intro y hy
          have := hne y hy
          simpa using this))
      simp only [arrayEqualsGo, if_neg h]
      rw [ih (i + 1)]
      constructor
      · intro hall
        intro x hx
        rcases List.mem_cons.mp hx with hx | hx
        · exact hx ▸ hex
        · exact hall x hx
      · intro hall x hx
        exact hall x (List.mem_cons_of_mem _ hx)

/-- `arrayEquals` succeeds exactly when the arrays have equal length and every
left element is `eq`-equal to at least one right element. -/
theorem arrayEquals_eq_ok_iff {α : Type} (l r : List α)
    (eq : α → α → EqualsResult) :
    arrayEquals l r eq = EqualsResult.Equal ↔
      (l.length = r.length ∧ ∀ x ∈ l, ∃ y ∈ r, (eq x y).isOk = true) := by
  unfold arrayEquals
  by_cases h : l.length = r.length
  · rw [if_neg (by simp [h]), arrayEqualsGo_eq_ok_iff]
    exact ⟨fun hc => ⟨h, hc⟩, fun hc => hc.2⟩
  · rw [if_pos h]
    constructor
    · intro hc; cases hc
    · intro hc; exact absurd hc.1 h

/-- `arrayEquals` of a list against itself succeeds whenever the element
comparison succeeds on each element paired with itself. -/
theorem arrayEquals_self {α : Type} (l : List α) (eq : α → α → EqualsResult)
    (h : ∀ x ∈ l, (eq x x).isOk = true) :
    arrayEquals l l eq = EqualsResult.Equal :=
  (arrayEquals_eq_ok_iff l l eq).mpr
    ⟨rfl, fun x hx => ⟨x, hx, h x hx⟩⟩

theorem arrayEquals_perm_right {α : Type} (l r r' : List α)
    (eq : α → α → EqualsResult) (hperm : r.Perm r')
    (h : arrayEquals l r eq = EqualsResult.Equal) :
    arrayEquals l r' eq = EqualsResult.Equal := by
  rcases (arrayEquals_eq_ok_iff l r eq).mp h with ⟨hlen, hmem⟩
  refine (arrayEquals_eq_ok_iff l r' eq).mpr ⟨?_, ?_⟩
  · rw [hlen, hperm.length_eq]
  · intro x hx
    rcases hmem x hx with ⟨y, hy, hok⟩
    exact ⟨y, hperm.mem_iff.mp hy, hok⟩

/-! ## The vocabulary classes

Each concrete class is flattened into a structure extending `ThingFields`
(the fields declared on the abstract class `Thing`); supertype delegation in
`equals` / `hash` / serialization becomes use of the `ThingFields` part. -/

/-- The instance fields declared on the abstract class `Thing`; `sameAs` and
`url` hold named nodes, represented by their IRIs. -/
structure ThingFields where
  description : Option String
  identifiers : List String
  name : Option String
  sameAs : List String
  url : Option String
deriving DecidableEq, Repr

/-- `Thing.equals`, comparing the `Thing`-level fields plus the (abstract)
`identifier` and `type` getters of the two receivers, in the source's chain
order. -/
def thingEquals (l r : ThingFields) (lid rid : String) (ltype rtype : String) :
    EqualsResult :=
  (propStep "description"
      (maybeEquals l.description r.description strictEqualsStr)).bind fun _ =>
  (propStep "identifier" (namedNodeEquals lid rid)).bind fun _ =>
  (propStep "identifiers"
      (arrayEquals l.identifiers r.identifiers strictEqualsStr)).bind fun _ =>
  (propStep "name" (maybeEquals l.name r.name strictEqualsStr)).bind fun _ =>
  (propStep "sameAs"
      (arrayEquals l.sameAs r.sameAs namedNodeEquals)).bind fun _ =>
  (propStep "type" (strictEqualsStr ltype rtype)).bind fun _ =>
  propStep "url" (maybeEquals l.url r.url namedNodeEquals)

/-- A hasher is the list of `update` arguments received so far. -/
def hasherUpdate (h : List String) (m : String) : List String := h ++ [m]

/-- The loop `for (item of xs) { hasher.update(item) }`. -/
def hashStrList (l : List String) (h : List String) : List String :=
  l.foldl hasherUpdate h

/-- The loop `for (item of xs) { hasher.update(item.termType);
hasher.update(item.value) }` over named nodes. -/
def hashTermList (l : List String) (h : List String) : List String :=
  l.foldl (fun h iri => hasherUpdate (hasherUpdate h "NamedNode") iri) h

/-- `Thing.hash`. -/
def ThingFields.hash (t : ThingFields) (h0 : List String) : List String :=
  let h1 := match t.description with
    | some v => hasherUpdate h0 v
    | none => h0
  let h2 := hashStrList t.identifiers h1
  let h3 := match t.name with
    | some v => hasherUpdate h2 v
    | none => h2
  let h4 := hashTermList t.sameAs h3
  let h5 := match t.url with
    | some iri => hasherUpdate (hasherUpdate h4 "NamedNode") iri
    | none => h4
  h5

/-- The hex digest of `js-sha256` is a pure function of the sequence of
`update` calls; the digest function itself is irrelevant to every claim, so it
is modelled by an arbitrary concrete function of that sequence. -/
def sha256hex (updates : List String) : String := toString updates

/-- `Role` (concrete class).  `_identifier` is the private mutable backing
field, absent when the constructor received no identifier. -/
structure Role extends ThingFields where
  endDate : Option JsDate
  _identifier : Option String
  roleName : Option String
  startDate : Option JsDate
deriving DecidableEq, Repr

/-- The `type` discriminant literal of `Role`. -/
def Role.type : String := "Role"

/-- `Role.hash` (the identifier is deliberately not hashed, since the hash is
used to synthesize it). -/
def Role.hash (r : Role) (h0 : List String) : List String :=
  let h1 := r.toThingFields.hash h0
  let h2 := match r.endDate with
    | some d => hasherUpdate h1 d.isoStringRepr
    | none => h1
  let h3 := match r.roleName with
    | some iri => hasherUpdate (hasherUpdate h2 "NamedNode") iri
    | none => h2
  let h4 := match r.startDate with
    | some d => hasherUpdate h3 d.isoStringRepr
    | none => h3
  h4

/-- The `Role.identifier` getter: the explicit identifier when present,
otherwise the named node `urn:shaclmate:object:Role:<sha256 of hash(fresh
hasher)>`. -/
def Role.identifier (r : Role) : String :=
  match r._identifier with
  | some iri => iri
  | none => "urn:shaclmate:object:" ++ Role.type ++ ":" ++ sha256hex (r.hash [])

/-- `Role.equals`. -/
def Role.equals (l r : Role) : EqualsResult :=
  (thingEquals l.toThingFields r.toThingFields l.identifier r.identifier
      Role.type Role.type).bind fun _ =>
  (propStep "endDate" (maybeEquals l.endDate r.endDate dateEquals)).bind fun _ =>
  (propStep "roleName"
      (maybeEquals l.roleName r.roleName namedNodeEquals)).bind fun _ =>
  propStep "startDate" (maybeEquals l.startDate r.startDate dateEquals)

/-- `Occupation` (concrete class). -/
structure Occupation extends ThingFields where
  identifier : String
deriving DecidableEq, Repr

/-- The `type` discriminant literal of `Occupation`. -/
def Occupation.type : String := "Occupation"

/-- `Occupation.equals` (inherited from `Thing` via `Intangible`). -/
def Occupation.equals (l r : Occupation) : EqualsResult :=
  thingEquals l.toThingFields r.toThingFields l.identifier r.identifier
    Occupation.type Occupation.type

/-- `Occupation.hash`. -/
def Occupation.hash (o : Occupation) (h0 : List String) : List String :=
  hasherUpdate (o.toThingFields.hash h0) o.identifier

/-- `QuantitiveValue` (concrete class). -/
structure QuantitiveValue extends ThingFields where
  identifier : String
  value : Option JsNum
deriving DecidableEq, Repr

/-- The `type` discriminant literal of `QuantitiveValue`. -/
def QuantitiveValue.type : String := "QuantitiveValue"

/-- `QuantitiveValue.equals`. -/
def QuantitiveValue.equals (l r : QuantitiveValue) : EqualsResult :=
  (thingEquals l.toThingFields r.toThingFields l.identifier r.identifier
      QuantitiveValue.type QuantitiveValue.type).bind fun _ =>
  propStep "value" (maybeEquals l.value r.value strictEqualsNum)

/-- `QuantitiveValue.hash`. -/
def QuantitiveValue.hash (q : QuantitiveValue) (h0 : List String) :
    List String :=
  let h1 := hasherUpdate (q.toThingFields.hash h0) q.identifier
  match q.value with
  | some v => hasherUpdate h1 v.lex
  | none => h1

/-- `ImageObject` (concrete class), with the fields of `CreativeWork`
(`isBasedOn`) and `MediaObject` (`contentUrl`, `encodingFormat`, `height`,
`width`) flattened in. -/
structure ImageObject extends ThingFields where
  isBasedOn : List String
  contentUrl : Option String
  encodingFormat : Option String
  height : Option QuantitiveValue
  width : Option QuantitiveValue
  identifier : String
deriving DecidableEq, Repr

/-- The `type` discriminant literal of `ImageObject`. -/
def ImageObject.type : String := "ImageObject"

/-- `ImageObject.equals` (the chain `Thing` → `CreativeWork` →
`MediaObject`). -/
def ImageObject.equals (l r : ImageObject) : EqualsResult :=
  (thingEquals l.toThingFields r.toThingFields l.identifier r.identifier
      ImageObject.type ImageObject.type).bind fun _ =>
  (propStep "isBasedOn"
      (arrayEquals l.isBasedOn r.isBasedOn namedNodeEquals)).bind fun _ =>
  (propStep "contentUrl"
      (maybeEquals l.contentUrl r.contentUrl namedNodeEquals)).bind fun _ =>
  (propStep "encodingFormat"
      (maybeEquals l.encodingFormat r.encodingFormat
        strictEqualsStr)).bind fun _ =>
  (propStep "height"
      (maybeEquals l.height r.height QuantitiveValue.equals)).bind fun _ =>
  propStep "width" (maybeEquals l.width r.width QuantitiveValue.equals)

/-- `ImageObject.hash` (the chain `Thing` → `CreativeWork` → `MediaObject` →
`ImageObject`). -/
def ImageObject.hash (i : ImageObject) (h0 : List String) : List String :=
  let h1 := i.toThingFields.hash h0
  let h2 := hashTermList i.isBasedOn h1
  let h3 := match i.contentUrl with
    | some iri => hasherUpdate (hasherUpdate h2 "NamedNode") iri
    | none => h2
  let h4 := match i.encodingFormat with
    | some v => hasherUpdate h3 v
    | none => h3
  let h5 := match i.height with
    | some q => q.hash h4
    | none => h4
  let h6 := match i.width with
    | some q => q.hash h5
    | none => h5
  hasherUpdate h6 i.identifier

/-- `Person` (concrete class).  `hasOccupation` holds the union
`Occupation | Role`; `gender` holds an arbitrary RDF term. -/
structure Person extends ThingFields where
  birthDate : Option JsDate
  familyName : Option String
  gender : Option RdfTerm
  givenName : Option String
  hasOccupation : List (Occupation ⊕ Role)
  identifier : String
  images : List ImageObject
  memberOf : List String
deriving DecidableEq, Repr

/-- The `type` discriminant literal of `Person`. -/
def Person.type : String := "Person"

/-- The element comparison used for `Person.hasOccupation`: members of the
same branch of the union are compared with their `equals`; a mixed pair is
unequal with a `Property`-flavoured mismatch on `type`. -/
def occupationOrRoleEquals (l r : Occupation ⊕ Role) : EqualsResult :=
  match l, r with
  | .inl lo, .inl ro => lo.equals ro
  | .inr lr, .inr rr => lr.equals rr
  | _, _ => .error (.property "type" .booleanEquals)

/-- `Person.equals`. -/
def Person.equals (l r : Person) : EqualsResult :=
  (thingEquals l.toThingFields r.toThingFields l.identifier r.identifier
      Person.type Person.type).bind fun _ =>
  (propStep "birthDate"
      (maybeEquals l.birthDate r.birthDate dateEquals)).bind fun _ =>
  (propStep "familyName"
      (maybeEquals l.familyName r.familyName strictEqualsStr)).bind fun _ =>
  (propStep "gender" (maybeEquals l.gender r.gender termEquals)).bind fun _ =>
  (propStep "givenName"
      (maybeEquals l.givenName r.givenName strictEqualsStr)).bind fun _ =>
  (propStep "hasOccupation"
      (arrayEquals l.hasOccupation r.hasOccupation
        occupationOrRoleEquals)).bind fun _ =>
  (propStep "images"
      (arrayEquals l.images r.images ImageObject.equals)).bind fun _ =>
  propStep "memberOf" (arrayEquals l.memberOf r.memberOf namedNodeEquals)

/-- `Person.hash`. -/
def Person.hash (p : Person) (h0 : List String) : List String :=
  let h1 := p.toThingFields.hash h0
  let h2 := match p.birthDate with
    | some d => hasherUpdate h1 d.isoStringRepr
    | none => h1
  let h3 := match p.familyName with
    | some v => hasherUpdate h2 v
    | none => h2
  let h4 := match p.gender with
    | some t => hasherUpdate (hasherUpdate h3 t.termType) t.value
    | none => h3
  let h5 := match p.givenName with
    | some v => hasherUpdate h4 v
    | none => h4
  let h6 := p.hasOccupation.foldl
    (fun h item => match item with
      | .inl o => o.hash h
      | .inr r => r.hash h) h5
  let h7 := hasherUpdate h6 p.identifier
  let h8 := p.images.foldl (fun h i => i.hash h) h7
  hashTermList p.memberOf h8

/-! ### Hash update sequences

Each `hash` method threads the hasher through the fields in the declared
order; the following `updateSequence` functions give the resulting sequence of
`update` arguments explicitly, and the characterization lemmas prove that
`hash` appends exactly that sequence to any incoming hasher state. -/

/-- The sequence of `update` arguments contributed by `Thing.hash`. -/
def ThingFields.updateSequence (t : ThingFields) : List String :=
  (t.description.elim [] fun v => [v]) ++ t.identifiers ++
    (t.name.elim [] fun v => [v]) ++
    (t.sameAs.flatMap fun iri => ["NamedNode", iri]) ++
    (t.url.elim [] fun iri => ["NamedNode", iri])

/-- The sequence of `update` arguments contributed by `Role.hash`. -/
def Role.updateSequence (r : Role) : List String :=
  r.toThingFields.updateSequence ++
    (r.endDate.elim [] fun d => [d.isoStringRepr]) ++
    (r.roleName.elim [] fun iri => ["NamedNode", iri]) ++
    (r.startDate.elim [] fun d => [d.isoStringRepr])

/-- The sequence of `update` arguments contributed by `Occupation.hash`. -/
def Occupation.updateSequence (o : Occupation) : List String :=
  o.toThingFields.updateSequence ++ [o.identifier]

/-- The sequence of `update` arguments contributed by
`QuantitiveValue.hash`. -/
def QuantitiveValue.updateSequence (q : QuantitiveValue) : List String :=
  q.toThingFields.updateSequence ++ [q.identifier] ++
    (q.value.elim [] fun v => [v.lex])

/-- The sequence of `update` arguments contributed by `ImageObject.hash`. -/
def ImageObject.updateSequence (i : ImageObject) : List String :=
  i.toThingFields.updateSequence ++
    (i.isBasedOn.flatMap fun iri => ["NamedNode", iri]) ++
    (i.contentUrl.elim [] fun iri => ["NamedNode", iri]) ++
    (i.encodingFormat.elim [] fun v => [v]) ++
    (i.height.elim [] QuantitiveValue.updateSequence) ++
    (i.width.elim [] QuantitiveValue.updateSequence) ++ [i.identifier]

/-- The sequence of `update` arguments contributed by `Person.hash`. -/
def Person.updateSequence (p : Person) : List String :=
  p.toThingFields.updateSequence ++
    (p.birthDate.elim [] fun d => [d.isoStringRepr]) ++
    (p.familyName.elim [] fun v => [v]) ++
    (p.gender.elim [] fun t => [t.termType, t.value]) ++
    (p.givenName.elim [] fun v => [v]) ++
    (p.hasOccupation.flatMap fun item => match item with
      | .inl o => o.updateSequence
      | .inr r => r.updateSequence) ++ [p.identifier] ++
    (p.images.flatMap ImageObject.updateSequence) ++
    (p.memberOf.flatMap fun iri => ["NamedNode", iri])

theorem hashStrList_eq (l : List String) (h : List String) :
    hashStrList l h = h ++ l := by
  induction l generalizing h with
  | nil => simp [hashStrList]
  | cons a l ih =>
    rw [hashStrList, List.foldl_cons]
    rw [show List.foldl hasherUpdate (hasherUpdate h a) l
        = hashStrList l (hasherUpdate h a) from rfl]
    rw [ih]
    simp [hasherUpdate]

theorem hashTermList_eq (l : List String) (h : List String) :
    hashTermList l h = h ++ l.flatMap fun iri => ["NamedNode", iri] := by
  induction l generalizing h with
  | nil => simp [hashTermList]
  | cons a l ih =>
    rw [hashTermList, List.foldl_cons]
    rw [show List.foldl _ (hasherUpdate (hasherUpdate h "NamedNode") a) l
        = hashTermList l (hasherUpdate (hasherUpdate h "NamedNode") a)
      from rfl]
    rw [ih]
    simp [hasherUpdate]

theorem thingHash_eq (t : ThingFields) (h : List String) :
    t.hash h = h ++ t.updateSequence := by
  unfold ThingFields.hash ThingFields.updateSequence
  cases t.description <;> cases t.name <;> cases t.url <;>
    simp [hasherUpdate, hashStrList_eq, hashTermList_eq, Option.elim]

theorem roleHash_eq (r : Role) (h : List String) :
    r.hash h = h ++ r.updateSequence := by
  unfold Role.hash Role.updateSequence
  cases r.endDate <;> cases r.roleName <;> cases r.startDate <;>
    simp [hasherUpdate, thingHash_eq, Option.elim]

theorem occupationHash_eq (o : Occupation) (h : List String) :
    o.hash h = h ++ o.updateSequence := by
  unfold Occupation.hash Occupation.updateSequence
  simp [hasherUpdate, thingHash_eq]

theorem quantitiveValueHash_eq (q : QuantitiveValue) (h : List String) :
    q.hash h = h ++ q.updateSequence := by
  unfold QuantitiveValue.hash QuantitiveValue.updateSequence
  cases q.value <;> simp [hasherUpdate, thingHash_eq, Option.elim]

theorem imageObjectHash_eq (i : ImageObject) (h : List String) :
    i.hash h = h ++ i.updateSequence := by
  unfold ImageObject.hash ImageObject.updateSequence
  cases i.contentUrl <;> cases i.encodingFormat <;> cases i.height <;>
    cases i.width <;>
    simp [hasherUpdate, thingHash_eq, hashTermList_eq, quantitiveValueHash_eq,
      Option.elim]

theorem hashOccupationItems_eq (items : List (Occupation ⊕ Role))
    (h : List String) :
    items.foldl
      (fun h item => match item with
        | .inl o => o.hash h
        | .inr r => r.hash h) h =
      h ++ (items.flatMap fun item => match item with
        | .inl o => o.updateSequence
        | .inr r => r.updateSequence) := by
  induction items generalizing h with
  | nil => simp
  | cons a items ih =>
    rw [List.foldl_cons, ih]
    cases a with
    | inl o => simp [occupationHash_eq o h]
    | inr r => simp [roleHash_eq r h]

theorem hashImageList_eq (images : List ImageObject) (h : List String) :
    images.foldl (fun h i => i.hash h) h =
      h ++ images.flatMap ImageObject.updateSequence := by
  induction images generalizing h with
  | nil => simp
  | cons a images ih =>
    rw [List.foldl_cons, ih]
    simp [imageObjectHash_eq a h]

theorem personHash_eq (p : Person) (h : List String) :
    p.hash h = h ++ p.updateSequence := by
  unfold Person.hash Person.updateSequence
  simp only [hashOccupationItems_eq, hashImageList_eq, hashTermList_eq]
  cases p.birthDate <;> cases p.familyName <;> cases p.gender <;>
    cases p.givenName <;>
    simp [hasherUpdate, thingHash_eq, Option.elim]

/-! ### Reflexivity of the comparison combinators -/

theorem isOk_of_eq_Equal {r : EqualsResult} (h : r = EqualsResult.Equal) :
    r.isOk = true := by
  rw [h]; rfl

theorem strictEqualsStr_self (s : String) :
    strictEqualsStr s s = EqualsResult.Equal := by
  simp [strictEqualsStr, fromBooleanEqualsResult]

theorem namedNodeEquals_self (s : String) :
    namedNodeEquals s s = EqualsResult.Equal := by
  simp [namedNodeEquals, fromBooleanEqualsResult]

theorem termEquals_self (t : RdfTerm) :
    termEquals t t = EqualsResult.Equal := by
  simp [termEquals, fromBooleanEqualsResult]

theorem strictEqualsNum_self (n : JsNum) (h : n ≠ .nan) :
    strictEqualsNum n n = EqualsResult.Equal := by
  cases n with
  | nan => exact absurd rfl h
  | val q => simp [strictEqualsNum, JsNum.strictEq, fromBooleanEqualsResult]

theorem dateEquals_self (d : JsDate) (h : d ≠ .invalid) :
    dateEquals d d = EqualsResult.Equal := by
  cases d with
  | invalid => exact absurd rfl h
  | valid ms =>
    simp [dateEquals, JsDate.getTime, JsNum.strictEq, fromBooleanEqualsResult]

theorem maybeEquals_self {α : Type} (o : Option α) (eq : α → α → EqualsResult)
    (h : ∀ x ∈ o, eq x x = EqualsResult.Equal) :
    maybeEquals o o eq = EqualsResult.Equal := by
  cases o with
  | none => rfl
  | some a => exact h a rfl

theorem optionAll_spec {α : Type} (p : α → Bool) (o : Option α)
    (h : o.all p = true) : ∀ x ∈ o, p x = true := by
  cases o with
  | none => intro x hx; cases hx
  | some a =>
    intro x hx
    cases hx
    exact h

/-! ### Wellformedness: no `NaN` numbers and no invalid dates -/

/-- No invalid `Date` (whose `getTime()` would be `NaN`) inside the option. -/
def dateOptValid (o : Option JsDate) : Bool :=
  o.all fun d => d != JsDate.invalid

/-- No `NaN` number inside the option. -/
def numOptNotNaN (o : Option JsNum) : Bool :=
  o.all fun n => n != JsNum.nan

/-- A `QuantitiveValue` whose `value` is not `NaN`. -/
def QuantitiveValue.wellFormed (q : QuantitiveValue) : Bool :=
  numOptNotNaN q.value

/-- An `ImageObject` whose nested `QuantitiveValue`s carry no `NaN`. -/
def ImageObject.wellFormed (i : ImageObject) : Bool :=
  i.height.all QuantitiveValue.wellFormed && i.width.all QuantitiveValue.wellFormed

/-- A `Role` with no invalid dates. -/
def Role.wellFormed (r : Role) : Bool :=
  dateOptValid r.endDate && dateOptValid r.startDate

/-- Wellformedness of a `hasOccupation` element. -/
def occupationOrRoleWellFormed : Occupation ⊕ Role → Bool
  | .inl _ => true
  | .inr r => r.wellFormed

/-- A `Person` whose dates are valid and whose nested values are
well-formed. -/
def Person.wellFormed (p : Person) : Bool :=
  dateOptValid p.birthDate && p.hasOccupation.all occupationOrRoleWellFormed &&
    p.images.all ImageObject.wellFormed

theorem dateOptValid_spec (o : Option JsDate) (h : dateOptValid o = true) :
    ∀ d ∈ o, dateEquals d d = EqualsResult.Equal := by
  intro d hd
  refine dateEquals_self d ?_
  have := optionAll_spec _ o h d hd
  intro hc
  rw [hc] at this
  simp at this

theorem numOptNotNaN_spec (o : Option JsNum) (h : numOptNotNaN o = true) :
    ∀ n ∈ o, strictEqualsNum n n = EqualsResult.Equal := by
  intro n hn
  refine strictEqualsNum_self n ?_
  have := optionAll_spec _ o h n hn
  intro hc
  rw [hc] at this
  simp at this

/-! ### Reflexivity of `equals` on well-formed values -/

theorem thingEquals_self (t : ThingFields) (id ty : String) :
    thingEquals t t id id ty ty = EqualsResult.Equal := by
  unfold thingEquals
  rw [maybeEquals_self t.description strictEqualsStr
      (fun x _ => strictEqualsStr_self x),
    namedNodeEquals_self id,
    arrayEquals_self t.identifiers strictEqualsStr
      (fun x _ => isOk_of_eq_Equal (strictEqualsStr_self x)),
    maybeEquals_self t.name strictEqualsStr
      (fun x _ => strictEqualsStr_self x),
    arrayEquals_self t.sameAs namedNodeEquals
      (fun x _ => isOk_of_eq_Equal (namedNodeEquals_self x)),
    strictEqualsStr_self ty,
    maybeEquals_self t.url namedNodeEquals
      (fun x _ => namedNodeEquals_self x)]
  rfl

theorem occupationEquals_self (o : Occupation) :
    o.equals o = EqualsResult.Equal :=
  thingEquals_self o.toThingFields o.identifier Occupation.type

theorem roleEquals_self (r : Role) (h : r.wellFormed = true) :
    r.equals r = EqualsResult.Equal := by
  have hEnd : dateOptValid r.endDate = true := by
    have := h
    unfold Role.wellFormed at this
    exact (Bool.and_eq_true _ _).mp this |>.1
  have hStart : dateOptValid r.startDate = true := by
    have := h
    unfold Role.wellFormed at this
    exact (Bool.and_eq_true _ _).mp this |>.2
  unfold Role.equals
  rw [thingEquals_self,
    maybeEquals_self r.endDate dateEquals (dateOptValid_spec _ hEnd),
    maybeEquals_self r.roleName namedNodeEquals
      (fun x _ => namedNodeEquals_self x),
    maybeEquals_self r.startDate dateEquals (dateOptValid_spec _ hStart)]
  rfl

theorem quantitiveValueEquals_self (q : QuantitiveValue)
    (h : q.wellFormed = true) : q.equals q = EqualsResult.Equal := by
  unfold QuantitiveValue.equals
  rw [thingEquals_self,
    maybeEquals_self q.value strictEqualsNum (numOptNotNaN_spec _ h)]
  rfl

theorem imageObjectEquals_self (i : ImageObject) (h : i.wellFormed = true) :
    i.equals i = EqualsResult.Equal := by
  have hh : i.height.all QuantitiveValue.wellFormed = true :=
    ((Bool.and_eq_true _ _).mp h).1
  have hw : i.width.all QuantitiveValue.wellFormed = true :=
    ((Bool.and_eq_true _ _).mp h).2
  unfold ImageObject.equals
  rw [thingEquals_self,
    arrayEquals_self i.isBasedOn namedNodeEquals
      (fun x _ => isOk_of_eq_Equal (namedNodeEquals_self x)),
    maybeEquals_self i.contentUrl namedNodeEquals
      (fun x _ => namedNodeEquals_self x),
    maybeEquals_self i.encodingFormat strictEqualsStr
      (fun x _ => strictEqualsStr_self x),
    maybeEquals_self i.height QuantitiveValue.equals
      (fun q hq => quantitiveValueEquals_self q (optionAll_spec _ _ hh q hq)),
    maybeEquals_self i.width QuantitiveValue.equals
      (fun q hq => quantitiveValueEquals_self q (optionAll_spec _ _ hw q hq))]
  rfl

theorem occupationOrRoleEquals_self (x : Occupation ⊕ Role)
    (h : occupationOrRoleWellFormed x = true) :
    occupationOrRoleEquals x x = EqualsResult.Equal := by
  cases x with
  | inl o => exact occupationEquals_self o
  | inr r => exact roleEquals_self r h

theorem personEquals_self (p : Person) (h : p.wellFormed = true) :
    p.equals p = EqualsResult.Equal := by
  have h1 : dateOptValid p.birthDate = true := by
    unfold Person.wellFormed at h
    exact ((Bool.and_eq_true _ _).mp ((Bool.and_eq_true _ _).mp h).1).1
  have h2 : p.hasOccupation.all occupationOrRoleWellFormed = true := by
    unfold Person.wellFormed at h
    exact ((Bool.and_eq_true _ _).mp ((Bool.and_eq_true _ _).mp h).1).2
  have h3 : p.images.all ImageObject.wellFormed = true := by
    unfold Person.wellFormed at h
    exact ((Bool.and_eq_true _ _).mp h).2
  unfold Person.equals
  rw [thingEquals_self,
    maybeEquals_self p.birthDate dateEquals (dateOptValid_spec _ h1),
    maybeEquals_self p.familyName strictEqualsStr
      (fun x _ => strictEqualsStr_self x),
    maybeEquals_self p.gender termEquals (fun x _ => termEquals_self x),
    maybeEquals_self p.givenName strictEqualsStr
      (fun x _ => strictEqualsStr_self x),
    arrayEquals_self p.hasOccupation occupationOrRoleEquals
      (fun x hx => isOk_of_eq_Equal (occupationOrRoleEquals_self x
        (List.all_eq_true.mp h2 x hx))),
    arrayEquals_self p.images ImageObject.equals
      (fun x hx => isOk_of_eq_Equal (imageObjectEquals_self x
        (List.all_eq_true.mp h3 x hx))),
    arrayEquals_self p.memberOf namedNodeEquals
      (fun x _ => isOk_of_eq_Equal (namedNodeEquals_self x))]
  rfl

/-! ## The JSON representation

JSON values; strings in `YYYY-MM-DD` shape are the constructor `date` (their
day number), other strings are `str`.  `z.string()` accepts both shapes,
`z.string().date()` only the former. -/

inductive Json where
  | null
  | bool (b : Bool)
  | num (q : ℚ)
  | str (s : String)
  | date (day : ℤ)
  | arr (items : List Json)
  | obj (fields : List (String × Json))

/-- First binding of a key in a JSON object's field list. -/
def lookupField : List (String × Json) → String → Option Json
  | [], _ => none
  | (k', v) :: rest, k => if k' == k then some v else lookupField rest k

/-- Property access `jsonObject[k]` (`undefined`, i.e. `none`, on a non-object
or a missing key). -/
def Json.get : Json → String → Option Json
  | .obj fields, k => lookupField fields k
  | _, _ => none

/-- The string content of a JSON string value. -/
def Json.asString : Json → Option String
  | .str s => some s
  | .date d => some ("date:" ++ toString d)
  | _ => none

/-- The string content with a junk default (only consulted on values that
already passed the schema check). -/
def Json.asStringD (j : Json) : String := j.asString.getD ""

/-! ### The zod schema checks (`safeParse` success) -/

/-- `z.string()`. -/
def isStringJson : Json → Bool
  | .str _ => true
  | .date _ => true
  | _ => false

/-- `z.string().date()` (the `YYYY-MM-DD` format check). -/
def isDateStringJson : Json → Bool
  | .date _ => true
  | _ => false

/-- `z.string().min(1)`. -/
def isNonEmptyStringJson : Json → Bool
  | .str s => s != ""
  | .date _ => true
  | _ => false

/-- `z.number()`. -/
def isNumJson : Json → Bool
  | .num _ => true
  | _ => false

/-- `z.object({"@id": z.string().min(1)})`. -/
def isIdObject (j : Json) : Bool :=
  match j.get "@id" with
  | some v => isNonEmptyStringJson v
  | none => false

/-- `z.enum(options)`. -/
def isEnumOf (options : List String) : Json → Bool
  | .str s => options.contains s
  | _ => false

/-- `z.literal(s)` on a string literal. -/
def isLiteralStr (s : String) : Json → Bool
  | .str s' => s' == s
  | _ => false

/-- An array whose members all satisfy the element schema. -/
def isArrayOf (p : Json → Bool) : Json → Bool
  | .arr items => items.all p
  | _ => false

/-- The value is a JSON object (zod rejects non-objects before looking at
keys). -/
def isObjJson : Json → Bool
  | .obj _ => true
  | _ => false

/-- A required key of a zod object schema. -/
def reqField (j : Json) (k : String) (p : Json → Bool) : Bool :=
  match j.get k with
  | some v => p v
  | none => false

/-- An `.optional()` key of a zod object schema (absent or valid; an explicit
`null` is not `undefined` and fails). -/
def optField (j : Json) (k : String) (p : Json → Bool) : Bool :=
  match j.get k with
  | some v => p v
  | none => true

/-- The key checks shared by every class schema (`thingJsonZodSchema` minus
its `type` member, which each subclass schema replaces via `.merge`). -/
def thingBaseCheck (j : Json) : Bool :=
  isObjJson j &&
  optField j "description" isStringJson &&
  reqField j "@id" isNonEmptyStringJson &&
  reqField j "identifiers" (isArrayOf isStringJson) &&
  optField j "name" isStringJson &&
  reqField j "sameAs" (isArrayOf isIdObject) &&
  optField j "url" isIdObject

/-- `thingJsonZodSchema`. -/
def thingJsonZodSchemaCheck (j : Json) : Bool :=
  thingBaseCheck j &&
  reqField j "type" (isEnumOf ["GenderType", "ImageObject", "Occupation",
    "Organization", "Person", "QuantitiveValue", "Role"])

/-- `intangibleJsonZodSchema`. -/
def intangibleJsonZodSchemaCheck (j : Json) : Bool :=
  thingBaseCheck j &&
  reqField j "type"
    (isEnumOf ["GenderType", "Occupation", "QuantitiveValue", "Role"])

/-- `structuredValueJsonZodSchema`. -/
def structuredValueJsonZodSchemaCheck (j : Json) : Bool :=
  thingBaseCheck j && reqField j "type" (isLiteralStr "QuantitiveValue")

/-- `roleJsonZodSchema`. -/
def roleJsonZodSchemaCheck (j : Json) : Bool :=
  thingBaseCheck j &&
  optField j "endDate" isDateStringJson &&
  optField j "roleName" isIdObject &&
  optField j "startDate" isDateStringJson &&
  reqField j "type" (isLiteralStr "Role")

/-- `occupationJsonZodSchema`. -/
def occupationJsonZodSchemaCheck (j : Json) : Bool :=
  thingBaseCheck j && reqField j "type" (isLiteralStr "Occupation")

/-- `quantitiveValueJsonZodSchema`. -/
def quantitiveValueJsonZodSchemaCheck (j : Json) : Bool :=
  thingBaseCheck j && reqField j "type" (isLiteralStr "QuantitiveValue") &&
    optField j "value" isNumJson

/-- `creativeWorkJsonZodSchema`. -/
def creativeWorkJsonZodSchemaCheck (j : Json) : Bool :=
  thingBaseCheck j && reqField j "isBasedOn" (isArrayOf isIdObject) &&
    reqField j "type" (isLiteralStr "ImageObject")

/-- `mediaObjectJsonZodSchema`. -/
def mediaObjectJsonZodSchemaCheck (j : Json) : Bool :=
  creativeWorkJsonZodSchemaCheck j &&
  optField j "contentUrl" isIdObject &&
  optField j "encodingFormat" isStringJson &&
  optField j "height" quantitiveValueJsonZodSchemaCheck &&
  optField j "width" quantitiveValueJsonZodSchemaCheck

/-- `imageObjectJsonZodSchema` (merging adds no new member beyond `@id` and
the `type` literal, both already present). -/
def imageObjectJsonZodSchemaCheck (j : Json) : Bool :=
  mediaObjectJsonZodSchemaCheck j

/-- The `termType`-discriminated union of `personJsonZodSchema`'s `gender`
member. -/
def genderTermCheck (j : Json) : Bool :=
  match j.get "termType" with
  | some (.str "BlankNode") => reqField j "@id" isNonEmptyStringJson
  | some (.str "NamedNode") => reqField j "@id" isNonEmptyStringJson
  | some (.str "Literal") =>
    optField j "@language" isStringJson && optField j "@type" isStringJson &&
      reqField j "@value" isStringJson
  | _ => false

/-- The `type`-discriminated union of `personJsonZodSchema`'s `hasOccupation`
member. -/
def occupationOrRoleUnionCheck (j : Json) : Bool :=
  match j.get "type" with
  | some (.str s) =>
    if s == "Occupation" then occupationJsonZodSchemaCheck j
    else if s == "Role" then roleJsonZodSchemaCheck j
    else false
  | _ => false

/-- `personJsonZodSchema`. -/
def personJsonZodSchemaCheck (j : Json) : Bool :=
  thingBaseCheck j &&
  optField j "birthDate" isDateStringJson &&
  optField j "familyName" isStringJson &&
  optField j "gender" genderTermCheck &&
  optField j "givenName" isStringJson &&
  reqField j "hasOccupation" (isArrayOf occupationOrRoleUnionCheck) &&
  reqField j "images" (isArrayOf imageObjectJsonZodSchemaCheck) &&
  reqField j "memberOf" (isArrayOf isIdObject) &&
  reqField j "type" (isLiteralStr "Person")

/-! ### JSON decoding (`propertiesFromJson` / `fromJson`)

The decoders read the parsed object's fields exactly as the source does; they
are total, with junk defaults on branches the schema check already excludes.
`purify.Maybe.unsafeCoerce` on a `Left` throws; a thrown exception is the
`none` of an outer `Option` layer. -/

/-- `zod.ZodError` (the structured schema-validation failure). -/
inductive ZodError where
  | schemaViolation
deriving DecidableEq, Repr

/-- `purify`'s `unsafeCoerce` on an `Either`: the payload, or a throw
(`none`). -/
def unsafeCoerceE {e a : Type} : Except e a → Option a
  | .ok x => some x
  | .error _ => none

/-- Decoding `{"@id": ...}` to a named node IRI. -/
def decodeIdObj (j : Json) : String :=
  match j.get "@id" with
  | some v => v.asStringD
  | none => ""

/-- `dataFactory.namedNode(_jsonObject["@id"])`. -/
def decodeId (j : Json) : String :=
  match j.get "@id" with
  | some v => v.asStringD
  | none => ""

/-- The members of an array-valued key. -/
def getArr (j : Json) (k : String) : List Json :=
  match j.get k with
  | some (.arr items) => items
  | _ => []

/-- `new Date(s)` on the decoded string: a `YYYY-MM-DD` string parses to
midnight UTC of that day, anything else to an invalid date. -/
def decodeDateField : Json → JsDate
  | .date d => dateOfDay d
  | _ => .invalid

/-- `Thing.propertiesFromJson`'s field reads (shared by every class). -/
def decodeThingFields (j : Json) : ThingFields :=
  { description := (j.get "description").map Json.asStringD,
    identifiers :=
      match j.get "identifiers" with
      | some (.arr items) => items.map Json.asStringD
      | _ => [],
    name := (j.get "name").map Json.asStringD,
    sameAs :=
      match j.get "sameAs" with
      | some (.arr items) => items.map decodeIdObj
      | _ => [],
    url := (j.get "url").map decodeIdObj }

/-- `Role.fromJson = Role.propertiesFromJson.map(new Role(...))`, with the
schema checks of the delegation chain `Role` → `Intangible` → `Thing`. -/
def Role.fromJson (j : Json) : Except ZodError Role :=
  if roleJsonZodSchemaCheck j = false then .error .schemaViolation
  else if intangibleJsonZodSchemaCheck j = false then .error .schemaViolation
  else if thingJsonZodSchemaCheck j = false then .error .schemaViolation
  else .ok
    { toThingFields := decodeThingFields j,
      endDate := (j.get "endDate").map decodeDateField,
      _identifier := some (decodeId j),
      roleName := (j.get "roleName").map decodeIdObj,
      startDate := (j.get "startDate").map decodeDateField }

/-- `Occupation.fromJson` (chain `Occupation` → `Intangible` → `Thing`). -/
def Occupation.fromJson (j : Json) : Except ZodError Occupation :=
  if occupationJsonZodSchemaCheck j = false then .error .schemaViolation
  else if intangibleJsonZodSchemaCheck j = false then .error .schemaViolation
  else if thingJsonZodSchemaCheck j = false then .error .schemaViolation
  else .ok { toThingFields := decodeThingFields j, identifier := decodeId j }

/-- `QuantitiveValue.fromJson` (chain `QuantitiveValue` → `StructuredValue` →
`Intangible` → `Thing`). -/
def QuantitiveValue.fromJson (j : Json) : Except ZodError QuantitiveValue :=
  if quantitiveValueJsonZodSchemaCheck j = false then .error .schemaViolation
  else if structuredValueJsonZodSchemaCheck j = false then
    .error .schemaViolation
  else if intangibleJsonZodSchemaCheck j = false then .error .schemaViolation
  else if thingJsonZodSchemaCheck j = false then .error .schemaViolation
  else .ok
    { toThingFields := decodeThingFields j, identifier := decodeId j,
      value :=
        (j.get "value").map fun v =>
          match v with
          | .num q => JsNum.val q
          | _ => JsNum.nan }

/-- The `height` / `width` decode of `MediaObject.propertiesFromJson`:
`Maybe.fromNullable(x).map(i => QuantitiveValue.fromJson(i).unsafeCoerce())`,
where the `unsafeCoerce` throws on a `Left`. -/
def decodeQvThrow (o : Option Json) : Option (Option QuantitiveValue) :=
  match o with
  | none => some none
  | some v =>
    match unsafeCoerceE (QuantitiveValue.fromJson v) with
    | some q => some (some q)
    | none => none

/-- `ImageObject.fromJson` (chain `ImageObject` → `MediaObject` →
`CreativeWork` → `Thing`); the outer `Option` is the exception channel of the
nested `unsafeCoerce` calls. -/
def ImageObject.fromJson (j : Json) : Option (Except ZodError ImageObject) :=
  if imageObjectJsonZodSchemaCheck j = false then some (.error .schemaViolation)
  else if mediaObjectJsonZodSchemaCheck j = false then
    some (.error .schemaViolation)
  else if creativeWorkJsonZodSchemaCheck j = false then
    some (.error .schemaViolation)
  else if thingJsonZodSchemaCheck j = false then some (.error .schemaViolation)
  else
    match decodeQvThrow (j.get "height"), decodeQvThrow (j.get "width") with
    | some h, some w =>
      some (.ok
        { toThingFields := decodeThingFields j,
          isBasedOn := (getArr j "isBasedOn").map decodeIdObj,
          contentUrl := (j.get "contentUrl").map decodeIdObj,
          encodingFormat := (j.get "encodingFormat").map Json.asStringD,
          height := h, width := w, identifier := decodeId j })
    | _, _ => none

/-- The IRI constants of the string and language-string datatypes. -/
def xsdString : String := "http://www.w3.org/2001/XMLSchema#string"

/-- `rdf:langString`, the datatype `n3` gives a language-tagged literal. -/
def rdfLangString : String :=
  "http://www.w3.org/1999/02/22-rdf-syntax-ns#langString"

/-- The `gender` decode of `Person.propertiesFromJson` (`termType`
dispatch). -/
def decodeGenderTerm (j : Json) : RdfTerm :=
  match j.get "termType" with
  | some (.str "Literal") =>
    let v := match j.get "@value" with
      | some s => s.asStringD
      | none => ""
    (match j.get "@language" with
      | some lang => .literal (.str v) lang.asStringD rdfLangString
      | none =>
        match j.get "@type" with
        | some ty => .literal (.str v) "" ty.asStringD
        | none => .literal (.str v) "" xsdString)
  | some (.str "NamedNode") => .namedNode (decodeIdObj j)
  | _ => .blankNode ((decodeIdObj j).drop 2)

/-- One `hasOccupation` element decode of `Person.propertiesFromJson`:
`item.type === "Role" ? Role.fromJson(item).unsafeCoerce() :
Occupation.fromJson(item).unsafeCoerce()`. -/
def decodeOccupationOrRoleItem (j : Json) : Option (Occupation ⊕ Role) :=
  match j.get "type" with
  | some (.str s) =>
    if s == "Role" then (unsafeCoerceE (Role.fromJson j)).map .inr
    else (unsafeCoerceE (Occupation.fromJson j)).map .inl
  | _ => (unsafeCoerceE (Occupation.fromJson j)).map .inl

/-- `array.map(decode)` where the element decode may throw: the first thrown
exception propagates out of the whole map. -/
def mapThrow {α β : Type} (f : α → Option β) : List α → Option (List β)
  | [] => some []
  | x :: xs =>
    match f x, mapThrow f xs with
    | some y, some ys => some (y :: ys)
    | _, _ => none

/-- `Person.fromJson` (chain `Person` → `Thing`); the outer `Option` is the
exception channel of the `unsafeCoerce` calls on the nested `hasOccupation`
and `images` decodes. -/
def Person.fromJson (j : Json) : Option (Except ZodError Person) :=
  if personJsonZodSchemaCheck j = false then some (.error .schemaViolation)
  else if thingJsonZodSchemaCheck j = false then some (.error .schemaViolation)
  else
    match mapThrow decodeOccupationOrRoleItem (getArr j "hasOccupation"),
      mapThrow (fun v => (ImageObject.fromJson v).bind unsafeCoerceE)
        (getArr j "images") with
    | some occs, some imgs =>
      some (.ok
        { toThingFields := decodeThingFields j,
          birthDate := (j.get "birthDate").map decodeDateField,
          familyName := (j.get "familyName").map Json.asStringD,
          gender := (j.get "gender").map decodeGenderTerm,
          givenName := (j.get "givenName").map Json.asStringD,
          hasOccupation := occs,
          identifier := decodeId j,
          images := imgs,
          memberOf := (getArr j "memberOf").map decodeIdObj })
    | _, _ => none

/-! ### JSON encoding (`toJson`) -/

/-- A key that `JSON.stringify` keeps only when the value is defined. -/
def optEntry (k : String) (v : Option Json) : List (String × Json) :=
  match v with
  | some j => [(k, j)]
  | none => []

/-- `{"@id": iri}`. -/
def idObjJson (iri : String) : Json := .obj [("@id", .str iri)]

/-- `Thing.toJson`'s members (keys with `undefined` values are dropped by the
`JSON.parse(JSON.stringify(...))` round trip in the source). -/
def thingToJsonFields (t : ThingFields) (identifier ty : String) :
    List (String × Json) :=
  optEntry "description" (t.description.map .str) ++
  [("@id", .str identifier)] ++
  [("identifiers", .arr (t.identifiers.map .str))] ++
  optEntry "name" (t.name.map .str) ++
  [("sameAs", .arr (t.sameAs.map idObjJson))] ++
  [("type", .str ty)] ++
  optEntry "url" (t.url.map idObjJson)

/-- `Role.toJson`: the `Thing` members plus `endDate`, `roleName`,
`startDate`; a date serializes to its `YYYY-MM-DD` part
(`toISOString().replace(/T.*$/, "")`). -/
def Role.toJson (r : Role) : Json :=
  .obj (thingToJsonFields r.toThingFields r.identifier Role.type ++
    optEntry "endDate" (r.endDate.map fun d => Json.date d.dayNumber) ++
    optEntry "roleName" (r.roleName.map idObjJson) ++
    optEntry "startDate" (r.startDate.map fun d => Json.date d.dayNumber))

/-! ### Round-trip side conditions -/

/-- A date at midnight UTC: exactly the timestamps whose time-of-day part the
`YYYY-MM-DD` serializations can represent. -/
def isMidnight : JsDate → Bool
  | .invalid => false
  | .valid ms => ms == (Int.fdiv ms msPerDay) * msPerDay

/-- A non-empty string (the schemas' `min(1)` on `@id` members). -/
def strNonEmpty (s : String) : Bool := s != ""

theorem decodeDateField_dayNumber (d : JsDate) (h : isMidnight d = true) :
    decodeDateField (Json.date d.dayNumber) = d := by
  cases d with
  | invalid => simp [isMidnight] at h
  | valid ms =>
    have hms : (Int.fdiv ms msPerDay) * msPerDay = ms :=
      (beq_iff_eq.mp h).symm
    simp [decodeDateField, JsDate.dayNumber, dateOfDay, hms]

theorem midnight_valid (d : JsDate) (h : isMidnight d = true) :
    (d != JsDate.invalid) = true := by
  cases d with
  | invalid => simp [isMidnight] at h
  | valid ms => rfl

theorem lookupField_cons_ne (k k' : String) (v : Json)
    (rest : List (String × Json)) (h : (k' == k) = false) :
    lookupField ((k', v) :: rest) k = lookupField rest k := by
  simp [lookupField, h]

theorem lookupField_cons_same (k : String) (v : Json)
    (rest : List (String × Json)) :
    lookupField ((k, v) :: rest) k = some v := by
  simp [lookupField]

theorem lookupField_optEntry_append_ne (k k' : String) (v : Option Json)
    (rest : List (String × Json)) (h : (k' == k) = false) :
    lookupField (optEntry k' v ++ rest) k = lookupField rest k := by
  cases v <;> simp [optEntry, lookupField, h]

theorem lookupField_optEntry_append_same (k : String) (v : Option Json)
    (rest : List (String × Json)) (hrest : lookupField rest k = none) :
    lookupField (optEntry k v ++ rest) k = v := by
  cases v <;> simp [optEntry, lookupField, hrest]

theorem lookupField_optEntry_ne (k k' : String) (v : Option Json)
    (h : (k' == k) = false) : lookupField (optEntry k' v) k = none := by
  cases v <;> simp [optEntry, lookupField, h]

theorem lookupField_optEntry_same (k : String) (v : Option Json) :
    lookupField (optEntry k v) k = v := by
  cases v <;> simp [optEntry, lookupField]

/-- The value of every member of `Role.toJson`'s object. -/
theorem roleToJson_gets (r : Role) :
    (Role.toJson r).get "description" =
        r.toThingFields.description.map Json.str ∧
      (Role.toJson r).get "@id" = some (.str r.identifier) ∧
      (Role.toJson r).get "identifiers" =
        some (.arr (r.toThingFields.identifiers.map Json.str)) ∧
      (Role.toJson r).get "name" = r.toThingFields.name.map Json.str ∧
      (Role.toJson r).get "sameAs" =
        some (.arr (r.toThingFields.sameAs.map idObjJson)) ∧
      (Role.toJson r).get "type" = some (.str Role.type) ∧
      (Role.toJson r).get "url" = r.toThingFields.url.map idObjJson ∧
      (Role.toJson r).get "endDate" =
        r.endDate.map (fun d => Json.date d.dayNumber) ∧
      (Role.toJson r).get "roleName" = r.roleName.map idObjJson ∧
      (Role.toJson r).get "startDate" =
        r.startDate.map (fun d => Json.date d.dayNumber) := by
  refine ⟨?_, ?_, ?_, ?_, ?_, ?_, ?_, ?_, ?_, ?_⟩ <;>
    simp [Role.toJson, thingToJsonFields, Json.get,
      lookupField_cons_ne, lookupField_cons_same,
      lookupField_optEntry_append_ne, lookupField_optEntry_append_same,
      lookupField_optEntry_ne, lookupField_optEntry_same]

theorem isIdObject_idObjJson (iri : String) :
    isIdObject (idObjJson iri) = strNonEmpty iri := by
  simp [isIdObject, idObjJson, Json.get, lookupField, isNonEmptyStringJson,
    strNonEmpty]

theorem decodeIdObj_idObjJson (iri : String) :
    decodeIdObj (idObjJson iri) = iri := rfl

theorem map_map_asStringD (l : List String) :
    (l.map Json.str).map Json.asStringD = l := by
  induction l with
  | nil => rfl
  | cons a l ih => simp [ih, Json.asStringD, Json.asString]

theorem map_map_decodeIdObj (l : List String) :
    (l.map idObjJson).map decodeIdObj = l := by
  induction l with
  | nil => rfl
  | cons a l ih => simp [ih, decodeIdObj_idObjJson]

/-- The schema checks of the `Role` → `Intangible` → `Thing` chain all accept
`Role.toJson r`, provided the named-node-valued members are non-empty IRIs
(`min(1)` in the schemas). -/
theorem roleChecks_toJson (r : Role)
    (hId : strNonEmpty r.identifier = true)
    (hRoleName : r.roleName.all strNonEmpty = true)
    (hUrl : r.toThingFields.url.all strNonEmpty = true)
    (hSameAs : r.toThingFields.sameAs.all strNonEmpty = true) :
    roleJsonZodSchemaCheck (Role.toJson r) = true ∧
      intangibleJsonZodSchemaCheck (Role.toJson r) = true ∧
      thingJsonZodSchemaCheck (Role.toJson r) = true := by
  obtain ⟨h1, h2, h3, h4, h5, h6, h7, h8, h9, h10⟩ := roleToJson_gets r
  have hbase : thingBaseCheck (Role.toJson r) = true := by
    unfold thingBaseCheck reqField optField
    rw [h1, h2, h3, h4, h5, h7]
    simp only [Bool.and_eq_true]
    refine ⟨⟨⟨⟨⟨⟨?_, ?_⟩, ?_⟩, ?_⟩, ?_⟩, ?_⟩, ?_⟩
    · simp [Role.toJson, isObjJson]
    · cases r.toThingFields.description <;> trivial
    · exact hId
    · simp [isArrayOf, List.all_eq_true, isStringJson]
    · cases r.toThingFields.name <;> trivial
    · simp only [isArrayOf, List.all_eq_true]
      intro x hx
      rcases List.mem_map.mp hx with ⟨iri, hiri, rfl⟩
      rw [isIdObject_idObjJson]
      exact List.all_eq_true.mp hSameAs iri hiri
    · cases hu : r.toThingFields.url with
      | none => trivial
      | some iri =>
        rw [hu] at hUrl
        show isIdObject (idObjJson iri) = true
        rw [isIdObject_idObjJson]
        simpa [Option.all] using hUrl
  refine ⟨?_, ?_, ?_⟩
  · unfold roleJsonZodSchemaCheck reqField optField
    rw [h6, h8, h9, h10, hbase]
    simp only [Bool.and_eq_true]
    refine ⟨⟨⟨⟨?_, ?_⟩, ?_⟩, ?_⟩, ?_⟩
    · trivial
    · cases r.endDate <;> trivial
    · cases hrn : r.roleName with
      | none => trivial
      | some iri =>
        rw [hrn] at hRoleName
        show isIdObject (idObjJson iri) = true
        rw [isIdObject_idObjJson]
        simpa [Option.all] using hRoleName
    · cases r.startDate <;> trivial
    · decide
  · unfold intangibleJsonZodSchemaCheck reqField
    rw [h6, hbase]
    rfl
  · unfold thingJsonZodSchemaCheck reqField
    rw [h6, hbase]
    rfl

/-- Decoding the `Thing`-level members of `Role.toJson r` recovers the
`Thing`-level fields. -/
theorem decodeThingFields_roleToJson (r : Role) :
    decodeThingFields (Role.toJson r) = r.toThingFields := by
  obtain ⟨h1, h2, h3, h4, h5, h6, h7, h8, h9, h10⟩ := roleToJson_gets r
  unfold decodeThingFields
  rw [h1, h3, h4, h5, h7]
  obtain ⟨d, ids, n, sa, u⟩ := r.toThingFields
  congr 1
  · cases d <;> rfl
  · exact map_map_asStringD ids
  · cases n <;> rfl
  · exact map_map_decodeIdObj sa
  · cases u <;> rfl

theorem decodeDate_map_roundtrip (o : Option JsDate)
    (h : o.all isMidnight = true) :
    (o.map fun d => Json.date d.dayNumber).map decodeDateField = o := by
  cases o with
  | none => rfl
  | some d =>
    show some (decodeDateField (Json.date d.dayNumber)) = some d
    rw [decodeDateField_dayNumber d (by simpa [Option.all] using h)]

/-- `Role.fromJson (Role.toJson r)` succeeds and reconstructs `r` with the
(possibly synthesized) identifier made explicit, when the dates are at
midnight and the named-node members are non-empty. -/
theorem role_fromJson_toJson (r : Role)
    (hEnd : r.endDate.all isMidnight = true)
    (hStart : r.startDate.all isMidnight = true)
    (hId : strNonEmpty r.identifier = true)
    (hRoleName : r.roleName.all strNonEmpty = true)
    (hUrl : r.toThingFields.url.all strNonEmpty = true)
    (hSameAs : r.toThingFields.sameAs.all strNonEmpty = true) :
    Role.fromJson (Role.toJson r) =
      .ok { r with _identifier := some r.identifier } := by
  obtain ⟨hc1, hc2, hc3⟩ := roleChecks_toJson r hId hRoleName hUrl hSameAs
  obtain ⟨h1, h2, h3, h4, h5, h6, h7, h8, h9, h10⟩ := roleToJson_gets r
  have hid : decodeId (Role.toJson r) = r.identifier := by
    unfold decodeId
    rw [h2]
    rfl
  have hdec : decodeThingFields (Role.toJson r) = r.toThingFields :=
    decodeThingFields_roleToJson r
  unfold Role.fromJson
  rw [if_neg (by rw [hc1]; exact fun h => Bool.noConfusion h),
    if_neg (by rw [hc2]; exact fun h => Bool.noConfusion h),
    if_neg (by rw [hc3]; exact fun h => Bool.noConfusion h)]
  congr 1
  rw [h8, h9, h10, hid, hdec, decodeDate_map_roundtrip r.endDate hEnd,
    decodeDate_map_roundtrip r.startDate hStart]
  obtain ⟨t, e, idf, rn, s⟩ := r
  congr 1
  cases rn <;> rfl

/-- `equals` succeeds between `r` and `r` with its identifier made explicit
(the identifier getters agree), on valid dates. -/
theorem roleEquals_explicitIdentifier (r : Role)
    (hEnd : dateOptValid r.endDate = true)
    (hStart : dateOptValid r.startDate = true) :
    Role.equals r { r with _identifier := some r.identifier } =
      EqualsResult.Equal := by
  show (thingEquals r.toThingFields r.toThingFields r.identifier r.identifier
      Role.type Role.type).bind _ = EqualsResult.Equal
  rw [thingEquals_self]
  show (propStep "endDate" (maybeEquals r.endDate r.endDate dateEquals)).bind _
      = EqualsResult.Equal
  rw [maybeEquals_self r.endDate dateEquals (dateOptValid_spec _ hEnd)]
  show (propStep "roleName"
      (maybeEquals r.roleName r.roleName namedNodeEquals)).bind _
      = EqualsResult.Equal
  rw [maybeEquals_self r.roleName namedNodeEquals
    (fun x _ => namedNodeEquals_self x)]
  show propStep "startDate" (maybeEquals r.startDate r.startDate dateEquals)
      = EqualsResult.Equal
  rw [maybeEquals_self r.startDate dateEquals (dateOptValid_spec _ hStart)]
  rfl

theorem dateOptValid_of_midnight (o : Option JsDate)
    (h : o.all isMidnight = true) : dateOptValid o = true := by
  cases o with
  | none => rfl
  | some d =>
    simp only [Option.all] at h ⊢
    exact midnight_valid d h

/-! ### A schema-validated input decodes without a throw

The nested `unsafeCoerce` calls of `Person.propertiesFromJson` and
`MediaObject.propertiesFromJson` re-run `fromJson` on values the outer schema
already validated; these lemmas show the inner runs succeed, so the coercions
never throw. -/

theorem isLiteralStr_spec (s : String) (v : Json)
    (h : isLiteralStr s v = true) : v = .str s := by
  cases v <;> simp_all [isLiteralStr]

theorem roleCheck_parts {j : Json} (h : roleJsonZodSchemaCheck j = true) :
    thingBaseCheck j = true ∧ j.get "type" = some (.str "Role") := by
  unfold roleJsonZodSchemaCheck at h
  simp only [Bool.and_eq_true] at h
  refine ⟨h.1.1.1.1, ?_⟩
  have hty := h.2
  unfold reqField at hty
  cases hg : j.get "type" with
  | none => rw [hg] at hty; exact absurd hty (by simp)
  | some v => rw [hg] at hty; rw [isLiteralStr_spec _ _ hty]

theorem occupationCheck_parts {j : Json}
    (h : occupationJsonZodSchemaCheck j = true) :
    thingBaseCheck j = true ∧ j.get "type" = some (.str "Occupation") := by
  unfold occupationJsonZodSchemaCheck at h
  simp only [Bool.and_eq_true] at h
  refine ⟨h.1, ?_⟩
  have hty := h.2
  unfold reqField at hty
  cases hg : j.get "type" with
  | none => rw [hg] at hty; exact absurd hty (by simp)
  | some v => rw [hg] at hty; rw [isLiteralStr_spec _ _ hty]

theorem quantitiveValueCheck_parts {j : Json}
    (h : quantitiveValueJsonZodSchemaCheck j = true) :
    thingBaseCheck j = true ∧
      j.get "type" = some (.str "QuantitiveValue") := by
  unfold quantitiveValueJsonZodSchemaCheck at h
  simp only [Bool.and_eq_true] at h
  refine ⟨h.1.1, ?_⟩
  have hty := h.1.2
  unfold reqField at hty
  cases hg : j.get "type" with
  | none => rw [hg] at hty; exact absurd hty (by simp)
  | some v => rw [hg] at hty; rw [isLiteralStr_spec _ _ hty]

theorem creativeWorkCheck_parts {j : Json}
    (h : creativeWorkJsonZodSchemaCheck j = true) :
    thingBaseCheck j = true ∧ j.get "type" = some (.str "ImageObject") := by
  unfold creativeWorkJsonZodSchemaCheck at h
  simp only [Bool.and_eq_true] at h
  refine ⟨h.1.1, ?_⟩
  have hty := h.2
  unfold reqField at hty
  cases hg : j.get "type" with
  | none => rw [hg] at hty; exact absurd hty (by simp)
  | some v => rw [hg] at hty; rw [isLiteralStr_spec _ _ hty]

theorem thingCheck_of_base_type {j : Json} (hbase : thingBaseCheck j = true)
    {ty : String} (hty : j.get "type" = some (.str ty))
    (hmem : (["GenderType", "ImageObject", "Occupation", "Organization",
      "Person", "QuantitiveValue", "Role"].contains ty) = true) :
    thingJsonZodSchemaCheck j = true := by
  unfold thingJsonZodSchemaCheck reqField
  rw [hbase, hty]
  simpa [isEnumOf] using hmem

theorem intangibleCheck_of_base_type {j : Json}
    (hbase : thingBaseCheck j = true) {ty : String}
    (hty : j.get "type" = some (.str ty))
    (hmem : (["GenderType", "Occupation", "QuantitiveValue",
      "Role"].contains ty) = true) :
    intangibleJsonZodSchemaCheck j = true := by
  unfold intangibleJsonZodSchemaCheck reqField
  rw [hbase, hty]
  simpa [isEnumOf] using hmem

theorem role_fromJson_ok_of_check {j : Json}
    (h : roleJsonZodSchemaCheck j = true) : ∃ r, Role.fromJson j = .ok r := by
  obtain ⟨hbase, hty⟩ := roleCheck_parts h
  have hint := intangibleCheck_of_base_type hbase hty (by decide)
  have hthing := thingCheck_of_base_type hbase hty (by decide)
  have heq : Role.fromJson j = .ok
      { toThingFields := decodeThingFields j,
        endDate := (j.get "endDate").map decodeDateField,
        _identifier := some (decodeId j),
        roleName := (j.get "roleName").map decodeIdObj,
        startDate := (j.get "startDate").map decodeDateField } := by
    unfold Role.fromJson
    rw [if_neg (by rw [h]; exact fun hc => Bool.noConfusion hc),
      if_neg (by rw [hint]; exact fun hc => Bool.noConfusion hc),
      if_neg (by rw [hthing]; exact fun hc => Bool.noConfusion hc)]
  exact ⟨_, heq⟩

theorem occupation_fromJson_ok_of_check {j : Json}
    (h : occupationJsonZodSchemaCheck j = true) :
    ∃ o, Occupation.fromJson j = .ok o := by
  obtain ⟨hbase, hty⟩ := occupationCheck_parts h
  have hint := intangibleCheck_of_base_type hbase hty (by decide)
  have hthing := thingCheck_of_base_type hbase hty (by decide)
  have heq : Occupation.fromJson j = .ok
      { toThingFields := decodeThingFields j, identifier := decodeId j } := by
    unfold Occupation.fromJson
    rw [if_neg (by rw [h]; exact fun hc => Bool.noConfusion hc),
      if_neg (by rw [hint]; exact fun hc => Bool.noConfusion hc),
      if_neg (by rw [hthing]; exact fun hc => Bool.noConfusion hc)]
  exact ⟨_, heq⟩

theorem quantitiveValue_fromJson_ok_of_check {j : Json}
    (h : quantitiveValueJsonZodSchemaCheck j = true) :
    ∃ q, QuantitiveValue.fromJson j = .ok q := by
  obtain ⟨hbase, hty⟩ := quantitiveValueCheck_parts h
  have hsv : structuredValueJsonZodSchemaCheck j = true := by
    unfold structuredValueJsonZodSchemaCheck reqField
    rw [hbase, hty]
    rfl
  have hint := intangibleCheck_of_base_type hbase hty (by decide)
  have hthing := thingCheck_of_base_type hbase hty (by decide)
  have heq : QuantitiveValue.fromJson j = .ok
      { toThingFields := decodeThingFields j, identifier := decodeId j,
        value :=
          (j.get "value").map fun v =>
            match v with
            | .num q => JsNum.val q
            | _ => JsNum.nan } := by
    unfold QuantitiveValue.fromJson
    rw [if_neg (by rw [h]; exact fun hc => Bool.noConfusion hc),
      if_neg (by rw [hsv]; exact fun hc => Bool.noConfusion hc),
      if_neg (by rw [hint]; exact fun hc => Bool.noConfusion hc),
      if_neg (by rw [hthing]; exact fun hc => Bool.noConfusion hc)]
  exact ⟨_, heq⟩

theorem decodeQvThrow_ok_of_check {j : Json} {k : String}
    (h : optField j k quantitiveValueJsonZodSchemaCheck = true) :
    ∃ x, decodeQvThrow (j.get k) = some x := by
  unfold optField at h
  cases hg : j.get k with
  | none => exact ⟨none, rfl⟩
  | some v =>
    rw [hg] at h
    obtain ⟨q, hq⟩ := quantitiveValue_fromJson_ok_of_check h
    refine ⟨some q, ?_⟩
    show (match unsafeCoerceE (QuantitiveValue.fromJson v) with
      | some q => some (some q)
      | none => none) = some (some q)
    rw [hq]
    rfl

theorem imageObject_fromJson_ok_of_check {j : Json}
    (h : imageObjectJsonZodSchemaCheck j = true) :
    ∃ i, ImageObject.fromJson j = some (.ok i) := by
  have hmedia : mediaObjectJsonZodSchemaCheck j = true := h
  have hparts := hmedia
  unfold mediaObjectJsonZodSchemaCheck at hparts
  simp only [Bool.and_eq_true] at hparts
  have hcw : creativeWorkJsonZodSchemaCheck j = true := hparts.1.1.1.1
  obtain ⟨hbase, hty⟩ := creativeWorkCheck_parts hcw
  have hthing := thingCheck_of_base_type hbase hty (by decide)
  obtain ⟨hv, hheight⟩ := decodeQvThrow_ok_of_check hparts.1.2
  obtain ⟨wv, hwidth⟩ := decodeQvThrow_ok_of_check hparts.2
  have heq : ImageObject.fromJson j = some (.ok
      { toThingFields := decodeThingFields j,
        isBasedOn := (getArr j "isBasedOn").map decodeIdObj,
        contentUrl := (j.get "contentUrl").map decodeIdObj,
        encodingFormat := (j.get "encodingFormat").map Json.asStringD,
        height := hv, width := wv, identifier := decodeId j }) := by
    unfold ImageObject.fromJson
    rw [if_neg (by rw [h]; exact fun hc => Bool.noConfusion hc),
      if_neg (by rw [hmedia]; exact fun hc => Bool.noConfusion hc),
      if_neg (by rw [hcw]; exact fun hc => Bool.noConfusion hc),
      if_neg (by rw [hthing]; exact fun hc => Bool.noConfusion hc),
      hheight, hwidth]
  exact ⟨_, heq⟩

theorem mapThrow_ok {α β : Type} (f : α → Option β) (l : List α)
    (h : ∀ x ∈ l, ∃ y, f x = some y) : ∃ l', mapThrow f l = some l' := by
  induction l with
  | nil => exact ⟨[], rfl⟩
  | cons a l ih =>
    obtain ⟨y, hy⟩ := h a (by simp)
    obtain ⟨ys, hys⟩ := ih (fun x hx => h x (List.mem_cons_of_mem _ hx))
    refine ⟨y :: ys, ?_⟩
    unfold mapThrow
    rw [hy, hys]

theorem unionItem_decode_ok {x : Json}
    (h : occupationOrRoleUnionCheck x = true) :
    ∃ y, decodeOccupationOrRoleItem x = some y := by
  unfold occupationOrRoleUnionCheck at h
  cases hg : x.get "type" with
  | none => rw [hg] at h; exact absurd h (by simp)
  | some v =>
    rw [hg] at h
    cases v with
    | str s =>
      have h' : (if (s == "Occupation") = true then
          occupationJsonZodSchemaCheck x
        else if (s == "Role") = true then roleJsonZodSchemaCheck x
        else false) = true := h
      have hd : decodeOccupationOrRoleItem x =
          (if (s == "Role") = true then
            (unsafeCoerceE (Role.fromJson x)).map .inr
          else (unsafeCoerceE (Occupation.fromJson x)).map .inl) := by
        unfold decodeOccupationOrRoleItem
        rw [hg]
      rw [hd]
      by_cases hs : (s == "Role") = true
      · rw [if_pos hs]
        rw [if_neg (by rw [beq_iff_eq] at hs; rw [hs]; decide),
          if_pos hs] at h'
        obtain ⟨r, hr⟩ := role_fromJson_ok_of_check h'
        exact ⟨.inr r, by rw [hr]; rfl⟩
      · rw [if_neg hs]
        by_cases ho : (s == "Occupation") = true
        · rw [if_pos ho] at h'
          obtain ⟨o, hone⟩ := occupation_fromJson_ok_of_check h'
          exact ⟨.inl o, by rw [hone]; rfl⟩
        · rw [if_neg ho, if_neg hs] at h'
          exact absurd h' (by simp)
    | null => exact absurd h (by simp)
    | bool b => exact absurd h (by simp)
    | num q => exact absurd h (by simp)
    | date d => exact absurd h (by simp)
    | arr items => exact absurd h (by simp)
    | obj fields => exact absurd h (by simp)

theorem personCheck_parts {j : Json} (h : personJsonZodSchemaCheck j = true) :
    thingBaseCheck j = true ∧ j.get "type" = some (.str "Person") ∧
      reqField j "hasOccupation" (isArrayOf occupationOrRoleUnionCheck)
        = true ∧
      reqField j "images" (isArrayOf imageObjectJsonZodSchemaCheck) = true := by
  unfold personJsonZodSchemaCheck at h
  simp only [Bool.and_eq_true] at h
  refine ⟨h.1.1.1.1.1.1.1.1, ?_, h.1.1.1.2, h.1.1.2⟩
  have hty := h.2
  unfold reqField at hty
  cases hg : j.get "type" with
  | none => rw [hg] at hty; exact absurd hty (by simp)
  | some v => rw [hg] at hty; rw [isLiteralStr_spec _ _ hty]

theorem reqField_isArrayOf_spec {j : Json} {k : String} {p : Json → Bool}
    (h : reqField j k (isArrayOf p) = true) :
    ∀ x ∈ getArr j k, p x = true := by
  unfold reqField at h
  unfold getArr
  cases hg : j.get k with
  | none => rw [hg] at h; exact absurd h (by simp)
  | some v =>
    rw [hg] at h
    cases v with
    | arr items =>
      intro x hx
      exact List.all_eq_true.mp (by simpa [isArrayOf] using h) x hx
    | null => exact absurd h (by simp [isArrayOf])
    | bool b => exact absurd h (by simp [isArrayOf])
    | num q => exact absurd h (by simp [isArrayOf])
    | str s => exact absurd h (by simp [isArrayOf])
    | date d => exact absurd h (by simp [isArrayOf])
    | obj fields => exact absurd h (by simp [isArrayOf])

/-- `Person.fromJson` never throws: for every input it returns `some` result,
the `Left` (`ZodError`) branch exactly when the schema check rejects the
input, and an `ok` `Person` when it accepts — the nested `unsafeCoerce`
decodes of `hasOccupation` and `images` elements always succeed because the
outer schema already validated them. -/
theorem person_fromJson_total (j : Json) :
    (personJsonZodSchemaCheck j = false →
      Person.fromJson j = some (.error .schemaViolation)) ∧
    (personJsonZodSchemaCheck j = true →
      ∃ p, Person.fromJson j = some (.ok p)) := by
  constructor
  · intro hfalse
    unfold Person.fromJson
    rw [if_pos hfalse]
  · intro htrue
    obtain ⟨hbase, hty, hocc, himg⟩ := personCheck_parts htrue
    have hthing := thingCheck_of_base_type hbase hty (by decide)
    obtain ⟨occs, hoccs⟩ :=
      mapThrow_ok decodeOccupationOrRoleItem (getArr j "hasOccupation")
        (fun x hx => unionItem_decode_ok (reqField_isArrayOf_spec hocc x hx))
    obtain ⟨imgs, himgs⟩ :=
      mapThrow_ok (fun v => (ImageObject.fromJson v).bind unsafeCoerceE)
        (getArr j "images")
        (fun x hx => by
          obtain ⟨i, hi⟩ :=
            imageObject_fromJson_ok_of_check (reqField_isArrayOf_spec himg x hx)
          refine ⟨i, ?_⟩
          show (ImageObject.fromJson x).bind unsafeCoerceE = some i
          rw [hi]
          rfl)
    have heq : Person.fromJson j = some (.ok
        { toThingFields := decodeThingFields j,
          birthDate := (j.get "birthDate").map decodeDateField,
          familyName := (j.get "familyName").map Json.asStringD,
          gender := (j.get "gender").map decodeGenderTerm,
          givenName := (j.get "givenName").map Json.asStringD,
          hasOccupation := occs,
          identifier := decodeId j,
          images := imgs,
          memberOf := (getArr j "memberOf").map decodeIdObj }) := by
      unfold Person.fromJson
      rw [if_neg (by rw [htrue]; exact fun hc => Bool.noConfusion hc),
        if_neg (by rw [hthing]; exact fun hc => Bool.noConfusion hc),
        hoccs, himgs]
    exact ⟨_, heq⟩

/-! ## The RDF representation

A graph is the list of triples added to the `MutableResourceSet`, in
insertion order; every subject produced by `toRdf` is a named node,
represented by its IRI.  `Resource.values(pred, {unique: true})` iterates the
distinct objects of the subject's triples with that predicate, in insertion
order. -/

structure Triple where
  subj : String
  pred : String
  obj : RdfTerm
deriving DecidableEq, Repr

/-- The triples added so far. -/
abbrev Graph := List Triple

/-- `rdf:type`. -/
def rdfTypeIri : String := "http://www.w3.org/1999/02/22-rdf-syntax-ns#type"

/-- `xsd:date`, the datatype given to serialized `Date` values. -/
def xsdDate : String := "http://www.w3.org/2001/XMLSchema#date"

/-- A plain string literal. -/
def litStr (v : String) : RdfTerm := .literal (.str v) "" xsdString

/-- An `xsd:date` literal (`rdfLiteral.toRdf(date, {datatype: xsd:date})`
keeps only the `YYYY-MM-DD` part). -/
def dateLit (d : JsDate) : RdfTerm := .literal (.date d.dayNumber) "" xsdDate

/-- A numeric literal (`rdfLiteral.toRdf` on a JS number; the datatype choice
is immaterial to every claim). -/
def numLit : JsNum → RdfTerm
  | .val q => .literal (.num q) "" "http://www.w3.org/2001/XMLSchema#double"
  | .nan => .literal (.str "NaN") "" "http://www.w3.org/2001/XMLSchema#double"

/-- First-occurrence deduplication (the `unique: true` iteration). -/
def uniqueAux {α : Type} [DecidableEq α] (seen : List α) : List α → List α
  | [] => []
  | x :: xs =>
    if x ∈ seen then uniqueAux seen xs else x :: uniqueAux (x :: seen) xs

/-- The distinct members of a list, keeping first occurrences in order. -/
def uniqueList (l : List RdfTerm) : List RdfTerm := uniqueAux [] l

/-- The objects of the subject's triples with the given predicate, in
insertion order (before deduplication). -/
def pickObjs (g : Graph) (s p : String) : List RdfTerm :=
  (g.filter fun t => t.subj == s && t.pred == p).map (·.obj)

/-- `resource.values(predicate, {unique: true})`. -/
def valuesFor (g : Graph) (s p : String) : List RdfTerm :=
  uniqueList (pickObjs g s p)

/-- `resource.isInstanceOf(class)`. -/
def isInstanceOf (g : Graph) (s cls : String) : Bool :=
  g.any fun t => t.subj == s && t.pred == rdfTypeIri &&
    t.obj == .namedNode cls

/-- `rdfjsResource.Resource.ValueError`. -/
inductive ValueError where
  | unexpectedRdfType (subject : String) (expected : String)
  | missingValue
  | mistypedValue
deriving DecidableEq, Repr

/-- `.head()` of a value collection. -/
def headE (l : List RdfTerm) : Except ValueError RdfTerm :=
  match l with
  | [] => .error .missingValue
  | x :: _ => .ok x

/-- `Resource.Value.toIri`. -/
def toIriE : RdfTerm → Except ValueError String
  | .namedNode iri => .ok iri
  | _ => .error .mistypedValue

/-- `Resource.Value.toString` (the lexical value of a string literal). -/
def toStringE : RdfTerm → Except ValueError String
  | .literal (.str s) _ _ => .ok s
  | _ => .error .mistypedValue

/-- `Resource.Value.toDate` (parsing an `xsd:date` literal to midnight
UTC). -/
def toDateE : RdfTerm → Except ValueError JsDate
  | .literal (.date d) _ _ => .ok (dateOfDay d)
  | _ => .error .mistypedValue

/-- `Resource.Value.toNumber`. -/
def toNumberE : RdfTerm → Except ValueError JsNum
  | .literal (.num q) _ _ => .ok (.val q)
  | _ => .error .mistypedValue

/-- `Resource.Value.toNamedResource` (a named node, viewed as a resource of
the same set). -/
def toNamedResourceE : RdfTerm → Except ValueError String := toIriE

/-- A scalar property read:
`values(p, {unique:true}).head().chain(conv).toMaybe()`. -/
def readOpt {α : Type} (g : Graph) (s p : String)
    (conv : RdfTerm → Except ValueError α) : Option α :=
  ((headE (valuesFor g s p)).bind conv).toOption

/-- An array property read: `values(p, {unique:true}).flatMap(item =>
item.toValues().head().chain(conv).toMaybe().toList())` — element failures are
dropped. -/
def readList {α : Type} (g : Graph) (s p : String)
    (conv : RdfTerm → Except ValueError α) : List α :=
  (valuesFor g s p).flatMap fun t => ((conv t).toOption).toList

/-- `Either.altLazy`. -/
def exceptOrElse {e a : Type} (x : Except e a) (y : Unit → Except e a) :
    Except e a :=
  match x with
  | .ok v => .ok v
  | .error _ => y ()

/-! ### `toRdf` -/

/-- `Thing.toRdf`: adds the `Thing`-level property triples for the subject;
it never adds an `rdf:type` triple (its `ignoreRdfType` parameter is unused,
and every subclass delegation passes `true` for it). -/
def thingToRdf (t : ThingFields) (s : String) (_ignoreRdfType : Bool) :
    List Triple :=
  (t.description.elim [] fun v =>
    [⟨s, "http://schema.org/description", litStr v⟩]) ++
  (t.identifiers.map fun v =>
    (⟨s, "http://schema.org/identifier", litStr v⟩ : Triple)) ++
  (t.name.elim [] fun v => [⟨s, "http://schema.org/name", litStr v⟩]) ++
  (t.sameAs.map fun iri =>
    (⟨s, "http://schema.org/sameAs", .namedNode iri⟩ : Triple)) ++
  (t.url.elim [] fun iri => [⟨s, "http://schema.org/url", .namedNode iri⟩])

/-- `Role.toRdf`: delegates to the supertype with `ignoreRdfType: true`,
adds its own `rdf:type` triple unless suppressed, then its property
triples.  Returns the grown graph and the subject. -/
def Role.toRdf (r : Role) (ignoreRdfType : Bool) (g : Graph) :
    Graph × String :=
  let s := r.identifier
  let g1 := g ++ thingToRdf r.toThingFields s true
  let g2 := if ignoreRdfType then g1 else
    g1 ++ [⟨s, rdfTypeIri, .namedNode "http://schema.org/Role"⟩]
  let g3 := g2 ++ (r.endDate.elim [] fun d =>
    [⟨s, "http://schema.org/endDate", dateLit d⟩])
  let g4 := g3 ++ (r.roleName.elim [] fun iri =>
    [⟨s, "http://schema.org/roleName", .namedNode iri⟩])
  let g5 := g4 ++ (r.startDate.elim [] fun d =>
    [⟨s, "http://schema.org/startDate", dateLit d⟩])
  (g5, s)

/-- `Occupation.toRdf`. -/
def Occupation.toRdf (o : Occupation) (ignoreRdfType : Bool) (g : Graph) :
    Graph × String :=
  let s := o.identifier
  let g1 := g ++ thingToRdf o.toThingFields s true
  let g2 := if ignoreRdfType then g1 else
    g1 ++ [⟨s, rdfTypeIri, .namedNode "http://schema.org/Occupation"⟩]
  (g2, s)

/-- `QuantitiveValue.toRdf` (note the class's `rdf:type` IRI is
`schema:QuantitativeValue`). -/
def QuantitiveValue.toRdf (q : QuantitiveValue) (ignoreRdfType : Bool)
    (g : Graph) : Graph × String :=
  let s := q.identifier
  let g1 := g ++ thingToRdf q.toThingFields s true
  let g2 := if ignoreRdfType then g1 else
    g1 ++ [⟨s, rdfTypeIri, .namedNode "http://schema.org/QuantitativeValue"⟩]
  let g3 := g2 ++ (q.value.elim [] fun v =>
    [⟨s, "http://schema.org/value", numLit v⟩])
  (g3, s)

/-- The serialization of an optional nested `QuantitiveValue` property
(`MediaObject`'s `height` / `width`): the nested resource's triples, then a
pointer triple at it; the nested `toRdf` receives no `ignoreRdfType`. -/
def nestedQvSeg (o : Option QuantitiveValue) (s p : String) (g : Graph) :
    Graph :=
  match o with
  | some q =>
    let gq := q.toRdf false g
    gq.1 ++ [⟨s, p, .namedNode gq.2⟩]
  | none => g

/-- `ImageObject.toRdf` (chain `Thing` → `CreativeWork` → `MediaObject` →
`ImageObject`; the nested `QuantitiveValue.toRdf` calls receive no
`ignoreRdfType`, so they add their own type triples). -/
def ImageObject.toRdf (i : ImageObject) (ignoreRdfType : Bool) (g : Graph) :
    Graph × String :=
  let s := i.identifier
  let g1 := g ++ thingToRdf i.toThingFields s true
  let g2 := g1 ++ (i.isBasedOn.map fun iri =>
    (⟨s, "http://schema.org/isBasedOn", .namedNode iri⟩ : Triple))
  let g3 := g2 ++ (i.contentUrl.elim [] fun iri =>
    [⟨s, "http://schema.org/contentUrl", .namedNode iri⟩])
  let g4 := g3 ++ (i.encodingFormat.elim [] fun v =>
    [⟨s, "http://schema.org/encodingFormat", litStr v⟩])
  let g5 := nestedQvSeg i.height s "http://schema.org/height" g4
  let g6 := nestedQvSeg i.width s "http://schema.org/width" g5
  let g7 := if ignoreRdfType then g6 else
    g6 ++ [⟨s, rdfTypeIri, .namedNode "http://schema.org/ImageObject"⟩]
  (g7, s)

/-- One step of the `hasOccupation` serialization fold in `Person.toRdf`:
serialize the nested `Occupation` or `Role` into the graph (with no
`ignoreRdfType`) and record its subject. -/
def occStep (acc : Graph × List String) (item : Occupation ⊕ Role) :
    Graph × List String :=
  match item with
  | .inl o =>
    let go := o.toRdf false acc.1
    (go.1, acc.2 ++ [go.2])
  | .inr r =>
    let gr := r.toRdf false acc.1
    (gr.1, acc.2 ++ [gr.2])

/-- One step of the `images` serialization fold in `Person.toRdf`. -/
def imgStep (acc : Graph × List String) (i : ImageObject) :
    Graph × List String :=
  let gi := i.toRdf false acc.1
  (gi.1, acc.2 ++ [gi.2])

/-- `Person.toRdf`: the nested `hasOccupation` and `images` serializations
receive no `ignoreRdfType`, so each nested resource gets its own `rdf:type`
triple; the person resource then points at the nested subjects. -/
def Person.toRdf (p : Person) (ignoreRdfType : Bool) (g : Graph) :
    Graph × String :=
  let s := p.identifier
  let g1 := g ++ thingToRdf p.toThingFields s true
  let g2 := if ignoreRdfType then g1 else
    g1 ++ [⟨s, rdfTypeIri, .namedNode "http://schema.org/Person"⟩]
  let g3 := g2 ++ (p.birthDate.elim [] fun d =>
    [⟨s, "http://schema.org/birthDate", dateLit d⟩])
  let g4 := g3 ++ (p.familyName.elim [] fun v =>
    [⟨s, "http://schema.org/familyName", litStr v⟩])
  let g5 := g4 ++ (p.gender.elim [] fun t =>
    [⟨s, "http://schema.org/gender", t⟩])
  let g6 := g5 ++ (p.givenName.elim [] fun v =>
    [⟨s, "http://schema.org/givenName", litStr v⟩])
  let occFold := p.hasOccupation.foldl occStep (g6, [])
  let g7 := occFold.1 ++ (occFold.2.map fun iri =>
    (⟨s, "http://schema.org/hasOccupation", .namedNode iri⟩ : Triple))
  let imgFold := p.images.foldl imgStep (g7, [])
  let g8 := imgFold.1 ++ (imgFold.2.map fun iri =>
    (⟨s, "http://schema.org/image", .namedNode iri⟩ : Triple))
  let g9 := g8 ++ (p.memberOf.map fun iri =>
    (⟨s, "http://schema.org/memberOf", .namedNode iri⟩ : Triple))
  (g9, s)

/-! ### `fromRdf` -/

/-- `Thing.propertiesFromRdf`: every field read is wrapped in
`Either.of(...toMaybe())`, so it always succeeds. -/
def thingFromRdf (g : Graph) (s : String) : ThingFields :=
  { description := readOpt g s "http://schema.org/description" toStringE,
    identifiers := readList g s "http://schema.org/identifier" toStringE,
    name := readOpt g s "http://schema.org/name" toStringE,
    sameAs := readList g s "http://schema.org/sameAs" toIriE,
    url := readOpt g s "http://schema.org/url" toIriE }

/-- `Role.fromRdf`. -/
def Role.fromRdf (g : Graph) (s : String) (ignoreRdfType : Bool) :
    Except ValueError Role :=
  if !ignoreRdfType && !isInstanceOf g s "http://schema.org/Role" then
    .error (.unexpectedRdfType s "http://schema.org/Role")
  else .ok
    { toThingFields := thingFromRdf g s,
      endDate := readOpt g s "http://schema.org/endDate" toDateE,
      _identifier := some s,
      roleName := readOpt g s "http://schema.org/roleName" toIriE,
      startDate := readOpt g s "http://schema.org/startDate" toDateE }

/-- `Occupation.fromRdf`. -/
def Occupation.fromRdf (g : Graph) (s : String) (ignoreRdfType : Bool) :
    Except ValueError Occupation :=
  if !ignoreRdfType && !isInstanceOf g s "http://schema.org/Occupation" then
    .error (.unexpectedRdfType s "http://schema.org/Occupation")
  else .ok { toThingFields := thingFromRdf g s, identifier := s }

/-- `QuantitiveValue.fromRdf`. -/
def QuantitiveValue.fromRdf (g : Graph) (s : String) (ignoreRdfType : Bool) :
    Except ValueError QuantitiveValue :=
  if !ignoreRdfType &&
      !isInstanceOf g s "http://schema.org/QuantitativeValue" then
    .error (.unexpectedRdfType s "http://schema.org/QuantitativeValue")
  else .ok
    { toThingFields := thingFromRdf g s, identifier := s,
      value := readOpt g s "http://schema.org/value" toNumberE }

/-- `ImageObject.fromRdf` (the nested `height` / `width` resources decode via
`QuantitiveValue.fromRdf` with `ignoreRdfType: true`; failures drop to
`Maybe.empty`). -/
def ImageObject.fromRdf (g : Graph) (s : String) (ignoreRdfType : Bool) :
    Except ValueError ImageObject :=
  if !ignoreRdfType && !isInstanceOf g s "http://schema.org/ImageObject" then
    .error (.unexpectedRdfType s "http://schema.org/ImageObject")
  else .ok
    { toThingFields := thingFromRdf g s,
      isBasedOn := readList g s "http://schema.org/isBasedOn" toIriE,
      contentUrl := readOpt g s "http://schema.org/contentUrl" toIriE,
      encodingFormat :=
        readOpt g s "http://schema.org/encodingFormat" toStringE,
      height :=
        ((headE (valuesFor g s "http://schema.org/height")).bind
          toNamedResourceE |>.bind fun iri =>
            QuantitiveValue.fromRdf g iri true).toOption,
      width :=
        ((headE (valuesFor g s "http://schema.org/width")).bind
          toNamedResourceE |>.bind fun iri =>
            QuantitiveValue.fromRdf g iri true).toOption,
      identifier := s }

/-- One `hasOccupation` value decode of `Person.propertiesFromRdf`: the
`Occupation` decoder is attempted first (with `ignoreRdfType: true`), and the
`Role` decoder only via `altLazy` when it failed. -/
def decodeOccupationOrRoleRdf (g : Graph) (t : RdfTerm) :
    Except ValueError (Occupation ⊕ Role) :=
  exceptOrElse
    ((toNamedResourceE t).bind fun iri =>
      (Occupation.fromRdf g iri true).map Sum.inl)
    (fun _ =>
      (toNamedResourceE t).bind fun iri =>
        (Role.fromRdf g iri true).map Sum.inr)

/-- `Person.fromRdf`. -/
def Person.fromRdf (g : Graph) (s : String) (ignoreRdfType : Bool) :
    Except ValueError Person :=
  if !ignoreRdfType && !isInstanceOf g s "http://schema.org/Person" then
    .error (.unexpectedRdfType s "http://schema.org/Person")
  else .ok
    { toThingFields := thingFromRdf g s,
      birthDate := readOpt g s "http://schema.org/birthDate" toDateE,
      familyName := readOpt g s "http://schema.org/familyName" toStringE,
      gender := readOpt g s "http://schema.org/gender" (fun t => .ok t),
      givenName := readOpt g s "http://schema.org/givenName" toStringE,
      hasOccupation :=
        (valuesFor g s "http://schema.org/hasOccupation").flatMap fun t =>
          ((decodeOccupationOrRoleRdf g t).toOption).toList,
      identifier := s,
      images :=
        (valuesFor g s "http://schema.org/image").flatMap fun t =>
          (((toNamedResourceE t).bind fun iri =>
            ImageObject.fromRdf g iri true).toOption).toList,
      memberOf := readList g s "http://schema.org/memberOf" toIriE }

/-! ### `rdf:type` triple accounting -/

/-- The number of `rdf:type` triples on subject `s` naming class `cls`. -/
def countTypeTriples (g : Graph) (s cls : String) : ℕ :=
  (g.filter fun t =>
    t.subj == s && t.pred == rdfTypeIri && t.obj == .namedNode cls).length

/-- The number of `rdf:type` triples anywhere in the graph. -/
def typeTripleCount (g : Graph) : ℕ :=
  (g.filter fun t => t.pred == rdfTypeIri).length

theorem ctt_append (g1 g2 : Graph) (s cls : String) :
    countTypeTriples (g1 ++ g2) s cls =
      countTypeTriples g1 s cls + countTypeTriples g2 s cls := by
  simp [countTypeTriples, List.filter_append]

theorem ctt_nil (s cls : String) : countTypeTriples [] s cls = 0 := rfl

theorem ctt_type_triple (s cls : String) :
    countTypeTriples [⟨s, rdfTypeIri, .namedNode cls⟩] s cls = 1 := by
  simp [countTypeTriples]

theorem ctt_type_triple_other_class (s s' cls cls' : String)
    (h : (cls' == cls) = false) :
    countTypeTriples [⟨s', rdfTypeIri, .namedNode cls'⟩] s cls = 0 := by
  have : (RdfTerm.namedNode cls' == RdfTerm.namedNode cls) = false := by
    rw [beq_eq_false_iff_ne] at h ⊢
    intro hc
    exact h (by injection hc)
  simp [countTypeTriples, this]

theorem ctt_cons_type_triple (s cls : String) (g : Graph) :
    countTypeTriples
      (⟨s, "http://www.w3.org/1999/02/22-rdf-syntax-ns#type",
        .namedNode cls⟩ :: g) s cls =
      countTypeTriples g s cls + 1 := by
  simp [countTypeTriples, rdfTypeIri, List.filter_cons]

theorem ctt_single_other_pred (s s' p : String) (o : RdfTerm) (cls : String)
    (h : (p == rdfTypeIri) = false) :
    countTypeTriples [⟨s', p, o⟩] s cls = 0 := by
  simp [countTypeTriples, h]

theorem ctt_map_other_pred {α : Type} (l : List α) (f : α → RdfTerm)
    (s' p s cls : String) (h : (p == rdfTypeIri) = false) :
    countTypeTriples (l.map fun v => (⟨s', p, f v⟩ : Triple)) s cls = 0 := by
  induction l with
  | nil => rfl
  | cons a l ih =>
    simpa [countTypeTriples, List.filter_cons, h] using ih

theorem ctt_optSeg_other_pred {α : Type} (o : Option α) (f : α → RdfTerm)
    (s' p s cls : String) (h : (p == rdfTypeIri) = false) :
    countTypeTriples (o.elim [] fun v => [⟨s', p, f v⟩]) s cls = 0 := by
  cases o with
  | none => rfl
  | some v => exact ctt_single_other_pred s s' p (f v) cls h

theorem ctt_thingToRdf (t : ThingFields) (s' : String) (ig : Bool)
    (s cls : String) : countTypeTriples (thingToRdf t s' ig) s cls = 0 := by
  unfold thingToRdf
  rw [ctt_append, ctt_append, ctt_append, ctt_append]
  rw [ctt_optSeg_other_pred _ _ _ _ _ _ (by decide),
    ctt_optSeg_other_pred _ _ _ _ _ _ (by decide),
    ctt_optSeg_other_pred _ _ _ _ _ _ (by decide),
    ctt_map_other_pred _ _ _ _ _ _ (by decide),
    ctt_map_other_pred _ _ _ _ _ _ (by decide)]

theorem ttc_append (g1 g2 : Graph) :
    typeTripleCount (g1 ++ g2) = typeTripleCount g1 + typeTripleCount g2 := by
  simp [typeTripleCount, List.filter_append]

theorem ttc_map_other_pred {α : Type} (l : List α) (f : α → RdfTerm)
    (s' p : String) (h : (p == rdfTypeIri) = false) :
    typeTripleCount (l.map fun v => (⟨s', p, f v⟩ : Triple)) = 0 := by
  induction l with
  | nil => rfl
  | cons a l ih => simpa [typeTripleCount, List.filter_cons, h] using ih

theorem ttc_optSeg_other_pred {α : Type} (o : Option α) (f : α → RdfTerm)
    (s' p : String) (h : (p == rdfTypeIri) = false) :
    typeTripleCount (o.elim [] fun v => [⟨s', p, f v⟩]) = 0 := by
  cases o with
  | none => rfl
  | some v => simp [typeTripleCount, h]

/-- `Thing.toRdf` contributes no `rdf:type` triple at all, whatever its
`ignoreRdfType` argument. -/
theorem ttc_thingToRdf (t : ThingFields) (s' : String) (ig : Bool) :
    typeTripleCount (thingToRdf t s' ig) = 0 := by
  unfold thingToRdf
  rw [ttc_append, ttc_append, ttc_append, ttc_append]
  rw [ttc_optSeg_other_pred _ _ _ _ (by decide),
    ttc_optSeg_other_pred _ _ _ _ (by decide),
    ttc_optSeg_other_pred _ _ _ _ (by decide),
    ttc_map_other_pred _ _ _ _ (by decide),
    ttc_map_other_pred _ _ _ _ (by decide)]

theorem ctt_occupation_toRdf (o : Occupation) (ig : Bool) (g : Graph)
    (s : String) :
    countTypeTriples (Occupation.toRdf o ig g).1 s "http://schema.org/Person"
      = countTypeTriples g s "http://schema.org/Person" := by
  unfold Occupation.toRdf
  cases ig with
  | true =>
    show countTypeTriples (g ++ thingToRdf o.toThingFields o.identifier true)
      s "http://schema.org/Person" = _
    rw [ctt_append, ctt_thingToRdf]
    omega
  | false =>
    show countTypeTriples
      ((g ++ thingToRdf o.toThingFields o.identifier true) ++
        [⟨o.identifier, rdfTypeIri,
          .namedNode "http://schema.org/Occupation"⟩])
      s "http://schema.org/Person" = _
    rw [ctt_append, ctt_append, ctt_thingToRdf,
      ctt_type_triple_other_class _ _ _ _ (by decide)]
    omega

theorem ctt_role_toRdf (r : Role) (ig : Bool) (g : Graph) (s : String) :
    countTypeTriples (Role.toRdf r ig g).1 s "http://schema.org/Person" =
      countTypeTriples g s "http://schema.org/Person" := by
  unfold Role.toRdf
  cases ig with
  | true =>
    show countTypeTriples
      ((((g ++ thingToRdf r.toThingFields r.identifier true) ++
        (r.endDate.elim [] fun d =>
          [⟨r.identifier, "http://schema.org/endDate", dateLit d⟩])) ++
        (r.roleName.elim [] fun iri =>
          [⟨r.identifier, "http://schema.org/roleName", .namedNode iri⟩])) ++
        (r.startDate.elim [] fun d =>
          [⟨r.identifier, "http://schema.org/startDate", dateLit d⟩]))
      s "http://schema.org/Person" = _
    rw [ctt_append, ctt_append, ctt_append, ctt_append, ctt_thingToRdf,
      ctt_optSeg_other_pred _ _ _ _ _ _ (by decide),
      ctt_optSeg_other_pred _ _ _ _ _ _ (by decide),
      ctt_optSeg_other_pred _ _ _ _ _ _ (by decide)]
    omega
  | false =>
    show countTypeTriples
      (((((g ++ thingToRdf r.toThingFields r.identifier true) ++
        [⟨r.identifier, rdfTypeIri, .namedNode "http://schema.org/Role"⟩]) ++
        (r.endDate.elim [] fun d =>
          [⟨r.identifier, "http://schema.org/endDate", dateLit d⟩])) ++
        (r.roleName.elim [] fun iri =>
          [⟨r.identifier, "http://schema.org/roleName", .namedNode iri⟩])) ++
        (r.startDate.elim [] fun d =>
          [⟨r.identifier, "http://schema.org/startDate", dateLit d⟩]))
      s "http://schema.org/Person" = _
    rw [ctt_append, ctt_append, ctt_append, ctt_append, ctt_append,
      ctt_thingToRdf,
      ctt_type_triple_other_class _ _ _ _ (by decide),
      ctt_optSeg_other_pred _ _ _ _ _ _ (by decide),
      ctt_optSeg_other_pred _ _ _ _ _ _ (by decide),
      ctt_optSeg_other_pred _ _ _ _ _ _ (by decide)]
    omega

theorem ctt_qv_toRdf (q : QuantitiveValue) (ig : Bool) (g : Graph)
    (s cls : String)
    (h : (("http://schema.org/QuantitativeValue" : String) == cls) = false) :
    countTypeTriples (QuantitiveValue.toRdf q ig g).1 s cls =
      countTypeTriples g s cls := by
  unfold QuantitiveValue.toRdf
  cases ig with
  | true =>
    show countTypeTriples
      ((g ++ thingToRdf q.toThingFields q.identifier true) ++
        (q.value.elim [] fun v =>
          [⟨q.identifier, "http://schema.org/value", numLit v⟩])) s cls = _
    rw [ctt_append, ctt_append, ctt_thingToRdf,
      ctt_optSeg_other_pred _ _ _ _ _ _ (by decide)]
    omega
  | false =>
    show countTypeTriples
      (((g ++ thingToRdf q.toThingFields q.identifier true) ++
        [⟨q.identifier, rdfTypeIri,
          .namedNode "http://schema.org/QuantitativeValue"⟩]) ++
        (q.value.elim [] fun v =>
          [⟨q.identifier, "http://schema.org/value", numLit v⟩])) s cls = _
    rw [ctt_append, ctt_append, ctt_append, ctt_thingToRdf,
      ctt_type_triple_other_class _ _ _ _ h,
      ctt_optSeg_other_pred _ _ _ _ _ _ (by decide)]
    omega

theorem ctt_nestedQvSeg (o : Option QuantitiveValue) (s' p : String)
    (g : Graph) (s cls : String) (hp : (p == rdfTypeIri) = false)
    (h : (("http://schema.org/QuantitativeValue" : String) == cls) = false) :
    countTypeTriples (nestedQvSeg o s' p g) s cls =
      countTypeTriples g s cls := by
  cases o with
  | none => rfl
  | some q =>
    show countTypeTriples ((q.toRdf false g).1 ++
      [⟨s', p, .namedNode (q.toRdf false g).2⟩]) s cls = _
    rw [ctt_append, ctt_qv_toRdf _ _ _ _ _ h,
      ctt_single_other_pred _ _ _ _ _ hp]
    omega

theorem ctt_imageObject_toRdf (i : ImageObject) (ig : Bool) (g : Graph)
    (s : String) :
    countTypeTriples (ImageObject.toRdf i ig g).1 s
      "http://schema.org/Person" =
      countTypeTriples g s "http://schema.org/Person" := by
  cases ig with
  | true =>
    simp [ImageObject.toRdf, rdfTypeIri, ctt_append, ctt_nestedQvSeg,
      ctt_thingToRdf, ctt_map_other_pred, ctt_optSeg_other_pred]
  | false =>
    simp [ImageObject.toRdf, rdfTypeIri, ctt_append, ctt_nestedQvSeg,
      ctt_thingToRdf, ctt_map_other_pred, ctt_optSeg_other_pred]
    exact ctt_type_triple_other_class s i.identifier
      "http://schema.org/Person" "http://schema.org/ImageObject" (by decide)

theorem ctt_occFold (items : List (Occupation ⊕ Role))
    (acc : Graph × List String) (s : String) :
    countTypeTriples (items.foldl occStep acc).1 s
      "http://schema.org/Person" =
      countTypeTriples acc.1 s "http://schema.org/Person" := by
  induction items generalizing acc with
  | nil => rfl
  | cons a items ih =>
    rw [List.foldl_cons, ih]
    cases a with
    | inl o => exact ctt_occupation_toRdf o false acc.1 s
    | inr r => exact ctt_role_toRdf r false acc.1 s

theorem ctt_imgFold (images : List ImageObject) (acc : Graph × List String)
    (s : String) :
    countTypeTriples (images.foldl imgStep acc).1 s
      "http://schema.org/Person" =
      countTypeTriples acc.1 s "http://schema.org/Person" := by
  induction images generalizing acc with
  | nil => rfl
  | cons a images ih =>
    rw [List.foldl_cons, ih]
    exact ctt_imageObject_toRdf a false acc.1 s

/-- `Person.toRdf` adds exactly one `rdf:type schema:Person` triple on the
person's subject when `ignoreRdfType` is false and none when it is true (the
nested `hasOccupation` / `images` serializations never add a `schema:Person`
type triple). -/
theorem ctt_person_toRdf_self (p : Person) (ig : Bool) (g : Graph) :
    countTypeTriples (Person.toRdf p ig g).1 p.identifier
      "http://schema.org/Person" =
      countTypeTriples g p.identifier "http://schema.org/Person" +
        (if ig then 0 else 1) := by
  cases ig with
  | true =>
    simp [Person.toRdf, rdfTypeIri, ctt_append, ctt_thingToRdf,
      ctt_map_other_pred, ctt_optSeg_other_pred, ctt_occFold, ctt_imgFold]
  | false =>
    simp [Person.toRdf, rdfTypeIri, ctt_append, ctt_thingToRdf,
      ctt_map_other_pred, ctt_optSeg_other_pred, ctt_occFold, ctt_imgFold,
      ctt_cons_type_triple]

/-- `Role.toRdf` adds exactly one `rdf:type schema:Role` triple iff
`ignoreRdfType` is false. -/
theorem ctt_role_toRdf_self (r : Role) (ig : Bool) (g : Graph) :
    countTypeTriples (Role.toRdf r ig g).1 r.identifier
      "http://schema.org/Role" =
      countTypeTriples g r.identifier "http://schema.org/Role" +
        (if ig then 0 else 1) := by
  cases ig with
  | true =>
    simp [Role.toRdf, rdfTypeIri, ctt_append, ctt_thingToRdf,
      ctt_optSeg_other_pred]
  | false =>
    simp [Role.toRdf, rdfTypeIri, ctt_append, ctt_thingToRdf,
      ctt_optSeg_other_pred, ctt_cons_type_triple]

/-- `Occupation.toRdf` adds exactly one `rdf:type schema:Occupation` triple
iff `ignoreRdfType` is false. -/
theorem ctt_occupation_toRdf_self (o : Occupation) (ig : Bool) (g : Graph) :
    countTypeTriples (Occupation.toRdf o ig g).1 o.identifier
      "http://schema.org/Occupation" =
      countTypeTriples g o.identifier "http://schema.org/Occupation" +
        (if ig then 0 else 1) := by
  cases ig with
  | true =>
    simp [Occupation.toRdf, rdfTypeIri, ctt_append, ctt_thingToRdf]
  | false =>
    simp [Occupation.toRdf, rdfTypeIri, ctt_append, ctt_thingToRdf,
      ctt_cons_type_triple, ctt_nil]

/-- `QuantitiveValue.toRdf` adds exactly one
`rdf:type schema:QuantitativeValue` triple iff `ignoreRdfType` is false. -/
theorem ctt_qv_toRdf_self (q : QuantitiveValue) (ig : Bool) (g : Graph) :
    countTypeTriples (QuantitiveValue.toRdf q ig g).1 q.identifier
      "http://schema.org/QuantitativeValue" =
      countTypeTriples g q.identifier "http://schema.org/QuantitativeValue" +
        (if ig then 0 else 1) := by
  cases ig with
  | true =>
    simp [QuantitiveValue.toRdf, rdfTypeIri, ctt_append, ctt_thingToRdf,
      ctt_optSeg_other_pred]
  | false =>
    simp [QuantitiveValue.toRdf, rdfTypeIri, ctt_append, ctt_thingToRdf,
      ctt_optSeg_other_pred, ctt_cons_type_triple]

/-- `ImageObject.toRdf` adds exactly one `rdf:type schema:ImageObject`
triple on its own subject iff `ignoreRdfType` is false (the nested
`height` / `width` resources only add `schema:QuantitativeValue` type
triples). -/
theorem ctt_imageObject_toRdf_self (i : ImageObject) (ig : Bool) (g : Graph) :
    countTypeTriples (ImageObject.toRdf i ig g).1 i.identifier
      "http://schema.org/ImageObject" =
      countTypeTriples g i.identifier "http://schema.org/ImageObject" +
        (if ig then 0 else 1) := by
  cases ig with
  | true =>
    simp [ImageObject.toRdf, rdfTypeIri, ctt_append, ctt_nestedQvSeg,
      ctt_thingToRdf, ctt_map_other_pred, ctt_optSeg_other_pred]
  | false =>
    simp [ImageObject.toRdf, rdfTypeIri, ctt_append, ctt_nestedQvSeg,
      ctt_thingToRdf, ctt_map_other_pred, ctt_optSeg_other_pred,
      ctt_cons_type_triple, ctt_nil]

/-! ## Concrete sample values -/

/-- A `ThingFields` record with every optional field absent and every array
empty (all such constructor parameters may be omitted in the source). -/
def emptyThing : ThingFields :=
  { description := none, identifiers := [], name := none, sameAs := [],
    url := none }

/-- A minimal `Occupation`. -/
def sampleOccupation : Occupation :=
  { toThingFields := emptyThing, identifier := "http://example.com/occupation" }

/-- A minimal `Role` with an explicit identifier. -/
def sampleRole : Role :=
  { toThingFields := emptyThing, endDate := none,
    _identifier := some "http://example.com/role", roleName := none,
    startDate := none }

/-- A `Person` with nested occupation values of both branches of the union. -/
def samplePerson : Person :=
  { toThingFields := emptyThing, birthDate := some (.valid 0),
    familyName := some "Doe", gender := none, givenName := none,
    hasOccupation := [.inl sampleOccupation, .inr sampleRole],
    identifier := "http://example.com/person", images := [],
    memberOf := ["http://example.com/org"] }

/-- A constructible `QuantitiveValue` whose `value` is `NaN` (the constructor
accepts any `number`). -/
def qNaN : QuantitiveValue :=
  { toThingFields := emptyThing, identifier := "http://example.com/qv",
    value := some .nan }

/-! ## Claim C3 -/

/-- C3 counterexample: equality is not reflexive on every constructible
value — a `QuantitiveValue` whose `value` field holds `NaN` satisfies the
field constraint (`value?: number`), yet `x.equals(x)` is the `Left` branch
(`===` on `NaN` is `false`), not `Equal`. -/
theorem quantitive_value_nan_not_reflexive :
    QuantitiveValue.equals qNaN qNaN ≠ EqualsResult.Equal ∧
      QuantitiveValue.equals qNaN qNaN =
        .error (.property "value" .booleanEquals) := by
  constructor
  · decide
  · decide

/-- C3 (amended): equality is reflexive — `x.equals(x)` returns `Equal`, the
`Right` branch — for every constructible value of the vocabulary classes,
including values with optional fields, array-valued fields with duplicates and
nested object-valued fields, provided no number-valued field holds `NaN` and
no date-valued field holds an invalid `Date` (the well-formedness
predicates). -/
theorem equals_reflexive_on_wellformed :
    (∀ o : Occupation, o.equals o = EqualsResult.Equal) ∧
    (∀ q : QuantitiveValue, q.wellFormed = true →
      q.equals q = EqualsResult.Equal) ∧
    (∀ r : Role, r.wellFormed = true → r.equals r = EqualsResult.Equal) ∧
    (∀ i : ImageObject, i.wellFormed = true →
      i.equals i = EqualsResult.Equal) ∧
    (∀ p : Person, p.wellFormed = true → p.equals p = EqualsResult.Equal) :=
  ⟨occupationEquals_self, quantitiveValueEquals_self, roleEquals_self,
    imageObjectEquals_self, personEquals_self⟩

/-- C3 witness: reflexivity applied to a concrete `Person` holding both
branches of the `hasOccupation` union. -/
theorem equals_reflexive_on_wellformed_witness :
    Person.equals samplePerson samplePerson = EqualsResult.Equal :=
  equals_reflexive_on_wellformed.2.2.2.2 samplePerson (by decide)

/-! ### Reading back a serialized `Role` -/

theorem pickObjs_append (g1 g2 : Graph) (s p : String) :
    pickObjs (g1 ++ g2) s p = pickObjs g1 s p ++ pickObjs g2 s p := by
  simp [pickObjs, List.filter_append]

theorem pickObjs_nil (s p : String) : pickObjs [] s p = [] := rfl

theorem pickObjs_single_same (s p : String) (o : RdfTerm) :
    pickObjs [⟨s, p, o⟩] s p = [o] := by
  simp [pickObjs]

theorem pickObjs_single_ne (s p p' : String) (o : RdfTerm)
    (h : (p' == p) = false) : pickObjs [⟨s, p', o⟩] s p = [] := by
  simp [pickObjs, h]

theorem pickObjs_cons_same (s p : String) (o : RdfTerm) (rest : Graph) :
    pickObjs (⟨s, p, o⟩ :: rest) s p = o :: pickObjs rest s p := by
  simp [pickObjs, List.filter_cons]

theorem pickObjs_cons_ne (s p p' : String) (o : RdfTerm) (rest : Graph)
    (h : (p' == p) = false) :
    pickObjs (⟨s, p', o⟩ :: rest) s p = pickObjs rest s p := by
  simp [pickObjs, List.filter_cons, h]

theorem pickObjs_map_same {α : Type} (l : List α) (f : α → RdfTerm)
    (s p : String) :
    pickObjs (l.map fun v => (⟨s, p, f v⟩ : Triple)) s p = l.map f := by
  induction l with
  | nil => rfl
  | cons a l ih => simp [pickObjs, List.filter_cons] at ih ⊢; exact ih

theorem pickObjs_map_ne {α : Type} (l : List α) (f : α → RdfTerm)
    (s p p' : String) (h : (p' == p) = false) :
    pickObjs (l.map fun v => (⟨s, p', f v⟩ : Triple)) s p = [] := by
  induction l with
  | nil => rfl
  | cons a l ih => simpa [pickObjs, List.filter_cons, h] using ih

theorem pickObjs_optSeg_same {α : Type} (o : Option α) (f : α → RdfTerm)
    (s p : String) :
    pickObjs (o.elim [] fun v => [⟨s, p, f v⟩]) s p =
      o.elim [] fun v => [f v] := by
  cases o with
  | none => rfl
  | some v => exact pickObjs_single_same s p (f v)

theorem pickObjs_optSeg_ne {α : Type} (o : Option α) (f : α → RdfTerm)
    (s p p' : String) (h : (p' == p) = false) :
    pickObjs (o.elim [] fun v => [⟨s, p', f v⟩]) s p = [] := by
  cases o with
  | none => rfl
  | some v => exact pickObjs_single_ne s p p' (f v) h

theorem uniqueAux_eq_self {α : Type} [DecidableEq α] (l : List α) :
    ∀ seen : List α, l.Nodup → (∀ x ∈ l, x ∉ seen) →
      uniqueAux seen l = l := by
  induction l with
  | nil => intro seen _ _; rfl
  | cons a l ih =>
    intro seen hnd hdisj
    unfold uniqueAux
    rw [if_neg (hdisj a (by simp))]
    rw [ih (a :: seen) (List.Nodup.of_cons hnd)]
    intro x hx
    simp only [List.mem_cons]
    rintro (hxa | hxs)
    · exact (List.nodup_cons.mp hnd).1 (hxa ▸ hx)
    · exact hdisj x (List.mem_cons_of_mem _ hx) hxs

theorem uniqueList_eq_self (l : List RdfTerm) (h : l.Nodup) :
    uniqueList l = l :=
  uniqueAux_eq_self l [] h (by simp)

theorem uniqueList_optSeg {α : Type} (o : Option α) (f : α → RdfTerm) :
    uniqueList (o.elim [] fun v => [f v]) = o.elim [] fun v => [f v] := by
  cases o <;> rfl

theorem litStr_injective : Function.Injective litStr := by
  intro a b h
  simpa [litStr] using h

theorem namedNode_injective : Function.Injective RdfTerm.namedNode := by
  intro a b h
  injection h

theorem flatMap_map_litStr (l : List String) :
    ((l.map litStr).flatMap fun t => ((toStringE t).toOption).toList) = l := by
  induction l with
  | nil => rfl
  | cons a l ih => simpa [litStr, toStringE, Except.toOption] using ih

theorem flatMap_map_namedNode (l : List String) :
    ((l.map RdfTerm.namedNode).flatMap fun t =>
      ((toIriE t).toOption).toList) = l := by
  induction l with
  | nil => rfl
  | cons a l ih => simpa [toIriE, Except.toOption] using ih

theorem dateOfDay_dayNumber (d : JsDate) (h : isMidnight d = true) :
    dateOfDay d.dayNumber = d :=
  decodeDateField_dayNumber d h

/-- `Role.fromRdf (Role.toRdf r)` reconstructs `r` with the identifier made
explicit, when the dates are at midnight and the array-valued members have no
duplicates (the `unique: true` value iteration would collapse them). -/
theorem role_fromRdf_toRdf (r : Role)
    (hEnd : r.endDate.all isMidnight = true)
    (hStart : r.startDate.all isMidnight = true)
    (hIds : r.toThingFields.identifiers.Nodup)
    (hSame : r.toThingFields.sameAs.Nodup) :
    Role.fromRdf (Role.toRdf r false []).1 (Role.toRdf r false []).2 false =
      .ok { r with _identifier := some r.identifier } := by
  have hs : (Role.toRdf r false []).2 = r.identifier := by
    simp [Role.toRdf]
  have hd : pickObjs (Role.toRdf r false []).1 r.identifier
      "http://schema.org/description" =
      r.toThingFields.description.elim [] fun v => [litStr v] := by
    simp [Role.toRdf, thingToRdf, pickObjs_append, pickObjs_map_same,
      pickObjs_map_ne, pickObjs_optSeg_same, pickObjs_optSeg_ne,
      pickObjs_single_same, pickObjs_single_ne, pickObjs_nil,
      pickObjs_cons_same, pickObjs_cons_ne, rdfTypeIri]
  have hident : pickObjs (Role.toRdf r false []).1 r.identifier
      "http://schema.org/identifier" =
      r.toThingFields.identifiers.map litStr := by
    simp [Role.toRdf, thingToRdf, pickObjs_append, pickObjs_map_same,
      pickObjs_map_ne, pickObjs_optSeg_same, pickObjs_optSeg_ne,
      pickObjs_single_same, pickObjs_single_ne, pickObjs_nil,
      pickObjs_cons_same, pickObjs_cons_ne, rdfTypeIri]
  have hname : pickObjs (Role.toRdf r false []).1 r.identifier
      "http://schema.org/name" =
      r.toThingFields.name.elim [] fun v => [litStr v] := by
    simp [Role.toRdf, thingToRdf, pickObjs_append, pickObjs_map_same,
      pickObjs_map_ne, pickObjs_optSeg_same, pickObjs_optSeg_ne,
      pickObjs_single_same, pickObjs_single_ne, pickObjs_nil,
      pickObjs_cons_same, pickObjs_cons_ne, rdfTypeIri]
  have hsame : pickObjs (Role.toRdf r false []).1 r.identifier
      "http://schema.org/sameAs" =
      r.toThingFields.sameAs.map RdfTerm.namedNode := by
    simp [Role.toRdf, thingToRdf, pickObjs_append, pickObjs_map_same,
      pickObjs_map_ne, pickObjs_optSeg_same, pickObjs_optSeg_ne,
      pickObjs_single_same, pickObjs_single_ne, pickObjs_nil,
      pickObjs_cons_same, pickObjs_cons_ne, rdfTypeIri]
  have hurl : pickObjs (Role.toRdf r false []).1 r.identifier
      "http://schema.org/url" =
      r.toThingFields.url.elim [] fun iri => [RdfTerm.namedNode iri] := by
    simp [Role.toRdf, thingToRdf, pickObjs_append, pickObjs_map_same,
      pickObjs_map_ne, pickObjs_optSeg_same, pickObjs_optSeg_ne,
      pickObjs_single_same, pickObjs_single_ne, pickObjs_nil,
      pickObjs_cons_same, pickObjs_cons_ne, rdfTypeIri]
  have hend : pickObjs (Role.toRdf r false []).1 r.identifier
      "http://schema.org/endDate" =
      r.endDate.elim [] fun d => [dateLit d] := by
    simp [Role.toRdf, thingToRdf, pickObjs_append, pickObjs_map_same,
      pickObjs_map_ne, pickObjs_optSeg_same, pickObjs_optSeg_ne,
      pickObjs_single_same, pickObjs_single_ne, pickObjs_nil,
      pickObjs_cons_same, pickObjs_cons_ne, rdfTypeIri]
  have hrn : pickObjs (Role.toRdf r false []).1 r.identifier
      "http://schema.org/roleName" =
      r.roleName.elim [] fun iri => [RdfTerm.namedNode iri] := by
    simp [Role.toRdf, thingToRdf, pickObjs_append, pickObjs_map_same,
      pickObjs_map_ne, pickObjs_optSeg_same, pickObjs_optSeg_ne,
      pickObjs_single_same, pickObjs_single_ne, pickObjs_nil,
      pickObjs_cons_same, pickObjs_cons_ne, rdfTypeIri]
  have hstart : pickObjs (Role.toRdf r false []).1 r.identifier
      "http://schema.org/startDate" =
      r.startDate.elim [] fun d => [dateLit d] := by
    simp [Role.toRdf, thingToRdf, pickObjs_append, pickObjs_map_same,
      pickObjs_map_ne, pickObjs_optSeg_same, pickObjs_optSeg_ne,
      pickObjs_single_same, pickObjs_single_ne, pickObjs_nil,
      pickObjs_cons_same, pickObjs_cons_ne, rdfTypeIri]
  have hinst : isInstanceOf (Role.toRdf r false []).1 r.identifier
      "http://schema.org/Role" = true := by
    simp [Role.toRdf, thingToRdf, isInstanceOf]
  have hthing : thingFromRdf (Role.toRdf r false []).1 r.identifier =
      r.toThingFields := by
    unfold thingFromRdf readOpt readList valuesFor
    rw [hd, hident, hname, hsame, hurl,
      uniqueList_eq_self _ (hIds.map litStr_injective),
      uniqueList_eq_self _ (hSame.map namedNode_injective),
      flatMap_map_litStr, flatMap_map_namedNode,
      uniqueList_optSeg, uniqueList_optSeg, uniqueList_optSeg]
    obtain ⟨d, ids, n, sa, u⟩ := r.toThingFields
    congr 1
    · cases d <;> rfl
    · cases n <;> rfl
    · cases u <;> rfl
  have hendDec : readOpt (Role.toRdf r false []).1 r.identifier
      "http://schema.org/endDate" toDateE = r.endDate := by
    unfold readOpt valuesFor
    rw [hend, uniqueList_optSeg]
    cases he : r.endDate with
    | none => rfl
    | some dd =>
      show some (dateOfDay dd.dayNumber) = some dd
      rw [dateOfDay_dayNumber dd (by rw [he] at hEnd; simpa [Option.all] using hEnd)]
  have hstartDec : readOpt (Role.toRdf r false []).1 r.identifier
      "http://schema.org/startDate" toDateE = r.startDate := by
    unfold readOpt valuesFor
    rw [hstart, uniqueList_optSeg]
    cases he : r.startDate with
    | none => rfl
    | some dd =>
      show some (dateOfDay dd.dayNumber) = some dd
      rw [dateOfDay_dayNumber dd
        (by rw [he] at hStart; simpa [Option.all] using hStart)]
  have hrnDec : readOpt (Role.toRdf r false []).1 r.identifier
      "http://schema.org/roleName" toIriE = r.roleName := by
    unfold readOpt valuesFor
    rw [hrn, uniqueList_optSeg]
    cases r.roleName <;> rfl
  rw [hs]
  unfold Role.fromRdf
  rw [if_neg (by rw [hinst]; exact fun hc => Bool.noConfusion hc)]
  rw [hthing, hendDec, hstartDec, hrnDec]

/-- A `Role` exercising every member shape, with a synthesized identifier. -/
def roundTripRole : Role :=
  { toThingFields :=
      { description := some "a description", identifiers := ["i1", "i2"],
        name := some "a name", sameAs := ["http://example.com/s"],
        url := some "http://example.com/u" },
    endDate := some (.valid 86400000), _identifier := none,
    roleName := some "http://example.com/rn", startDate := none }

/-! ## Claim C1 -/

/-- A `Person` whose `hasOccupation` array holds a `Role`. -/
def personWithRole : Person :=
  { toThingFields := emptyThing, birthDate := none, familyName := none,
    gender := none, givenName := none, hasOccupation := [.inr sampleRole],
    identifier := "http://example.com/person", images := [], memberOf := [] }

/-- What `fromRdf(toRdf(personWithRole))` actually reconstructs: the nested
`Role` comes back as an `Occupation` (the `Occupation` decoder is attempted
first with `ignoreRdfType: true`, so it accepts the serialized `Role`
resource). -/
def personWithRoleDecoded : Person :=
  { personWithRole with
    hasOccupation :=
      [.inl { toThingFields := emptyThing,
              identifier := "http://example.com/role" }] }

/-- A `Role` whose `identifiers` array holds a duplicate. -/
def roleDupIds : Role :=
  { toThingFields := { emptyThing with identifiers := ["a", "a"] },
    endDate := none, _identifier := some "http://example.com/role",
    roleName := none, startDate := none }

/-- What `fromRdf(toRdf(roleDupIds))` actually reconstructs: the
`unique: true` value iteration collapses the duplicate. -/
def roleDupIdsDecoded : Role :=
  { roleDupIds with toThingFields := { emptyThing with identifiers := ["a"] } }

/-- C1 counterexample: `fromRdf(toRdf(x))` does not reconstruct an
`equals`-equal value for every constructible `x` — in particular not for a
`Person` whose `hasOccupation` array contains a `Role`: the round trip
succeeds but decodes the serialized `Role` as an `Occupation`, and `equals`
reports the `hasOccupation` element mismatch; a `Role` with duplicate
`identifiers` likewise comes back with the duplicate collapsed and compares
unequal on array length. -/
theorem person_role_rdf_roundtrip_fails :
    (Person.fromRdf (Person.toRdf personWithRole false []).1
        "http://example.com/person" false = .ok personWithRoleDecoded ∧
      Person.equals personWithRole personWithRoleDecoded =
        .error (.property "hasOccupation" (.arrayElement 0))) ∧
    (Role.fromRdf (Role.toRdf roleDupIds false []).1
        "http://example.com/role" false = .ok roleDupIdsDecoded ∧
      Role.equals roleDupIds roleDupIdsDecoded =
        .error (.property "identifiers" .arrayLength)) := by
  refine ⟨⟨?_, ?_⟩, ?_, ?_⟩ <;> decide

/-- C1 (amended): `fromRdf(toRdf(x))` succeeds and reconstructs a value
`equals`-equal to `x` for constructible values whose `Date` fields are at
midnight UTC and whose array-valued members have no duplicates — proved here
for every such `Role` — but not for a `Person` whose `hasOccupation` array
contains a `Role`: the union decode attempts the `Occupation` decoder first
with `ignoreRdfType: true`, which accepts the serialized `Role` resource, so
the `Role` is reconstructed as an `Occupation` and `equals` yields the `Left`
branch. -/
theorem role_rdf_roundtrip_equal (r : Role)
    (hEnd : r.endDate.all isMidnight = true)
    (hStart : r.startDate.all isMidnight = true)
    (hIds : r.toThingFields.identifiers.Nodup)
    (hSame : r.toThingFields.sameAs.Nodup) :
    ∃ r', Role.fromRdf (Role.toRdf r false []).1 (Role.toRdf r false []).2
        false = .ok r' ∧
      Role.equals r r' = EqualsResult.Equal :=
  ⟨{ r with _identifier := some r.identifier },
    role_fromRdf_toRdf r hEnd hStart hIds hSame,
    roleEquals_explicitIdentifier r (dateOptValid_of_midnight _ hEnd)
      (dateOptValid_of_midnight _ hStart)⟩

/-- C1 witness: the RDF round trip at a concrete fully-populated `Role`. -/
theorem role_rdf_roundtrip_equal_witness :
    ∃ r', Role.fromRdf (Role.toRdf roundTripRole false []).1
        (Role.toRdf roundTripRole false []).2 false = .ok r' ∧
      Role.equals roundTripRole r' = EqualsResult.Equal :=
  role_rdf_roundtrip_equal roundTripRole (by decide) (by decide) (by decide)
    (by decide)

/-! ## Claim C2 -/

/-- A `Role` whose `startDate` holds noon (12:00:00 UTC) of 1970-01-01 — a
perfectly constructible `Date` value. -/
def roleNoon : Role :=
  { toThingFields := emptyThing, endDate := none,
    _identifier := some "http://example.com/role", roleName := none,
    startDate := some (.valid 43200000) }

/-- What the JSON round trip actually reconstructs from `roleNoon`: the
`startDate` collapsed to midnight. -/
def roleNoonDecoded : Role :=
  { roleNoon with startDate := some (.valid 0) }

/-- A `Role` whose `url` field holds a named node with an empty IRI
(constructible: `dataFactory.namedNode("")`). -/
def roleEmptyUrl : Role :=
  { toThingFields := { emptyThing with url := some "" }, endDate := none,
    _identifier := some "http://example.com/role", roleName := none,
    startDate := none }

/-- C2 (amended): `fromJson(toJson(x))` succeeds and reconstructs a value
`equals`-equal to `x` for every constructible `Role` whose `Date`-valued
fields hold midnight-UTC timestamps — the `YYYY-MM-DD` serialization keeps
only the calendar date, so a `Date` with a time-of-day component comes back
truncated and unequal — and whose named-node-valued members (`identifier`,
`roleName`, `url`, `sameAs`) are non-empty IRIs, as required by the schema's
`min(1)`. -/
theorem role_json_roundtrip_equal (r : Role)
    (hEnd : r.endDate.all isMidnight = true)
    (hStart : r.startDate.all isMidnight = true)
    (hId : strNonEmpty r.identifier = true)
    (hRoleName : r.roleName.all strNonEmpty = true)
    (hUrl : r.toThingFields.url.all strNonEmpty = true)
    (hSameAs : r.toThingFields.sameAs.all strNonEmpty = true) :
    ∃ r', Role.fromJson (Role.toJson r) = .ok r' ∧
      Role.equals r r' = EqualsResult.Equal :=
  ⟨{ r with _identifier := some r.identifier },
    role_fromJson_toJson r hEnd hStart hId hRoleName hUrl hSameAs,
    roleEquals_explicitIdentifier r (dateOptValid_of_midnight _ hEnd)
      (dateOptValid_of_midnight _ hStart)⟩

/-- C2 witness: the round trip at a concrete `Role` with every member
populated and a synthesized identifier. -/
theorem role_json_roundtrip_equal_witness :
    ∃ r', Role.fromJson (Role.toJson roundTripRole) = .ok r' ∧
      Role.equals roundTripRole r' = EqualsResult.Equal :=
  role_json_roundtrip_equal roundTripRole (by decide) (by decide) (by decide)
    (by decide) (by decide) (by decide)

/-- C2 counterexample: the JSON round trip does not reconstruct an equal value
for every constructible `Role` with an arbitrary `Date`: serializing drops the
time of day (`toISOString().replace(/T.*$/, "")`), so a `startDate` of noon
comes back as midnight and `equals` reports the `startDate` mismatch;
moreover, with an empty-IRI `url` the round trip does not even succeed (the
`@id` member fails the schema's `min(1)`). -/
theorem role_json_roundtrip_fails_on_time_of_day :
    Role.fromJson (Role.toJson roleNoon) = .ok roleNoonDecoded ∧
      Role.equals roleNoon roleNoonDecoded =
        .error (.property "startDate" .booleanEquals) ∧
      Role.fromJson (Role.toJson roleEmptyUrl) = .error .schemaViolation := by
  refine ⟨?_, ?_, ?_⟩ <;> decide

/-! ## Claim C4 -/

/-- A `Role` constructed without an explicit identifier parameter. -/
def synthRole : Role :=
  { toThingFields := emptyThing, endDate := none, _identifier := none,
    roleName := some "http://example.com/roleName", startDate := none }

/-- C4: identifier synthesis is deterministic — two `Role` values constructed
without an explicit identifier and with structurally identical field values
synthesize the same `urn:shaclmate:object:Role:<digest>` named node, namely
the URN built from the SHA-256 digest of the `hash` update sequence. -/
theorem role_identifier_synthesis_deterministic :
    (∀ r1 r2 : Role, r1._identifier = none → r2._identifier = none →
      r1.toThingFields = r2.toThingFields → r1.endDate = r2.endDate →
      r1.roleName = r2.roleName → r1.startDate = r2.startDate →
      Role.identifier r1 = Role.identifier r2) ∧
    (∀ r : Role, r._identifier = none →
      Role.identifier r =
        "urn:shaclmate:object:" ++ Role.type ++ ":" ++ sha256hex (r.hash [])) := by
  constructor
  · intro r1 r2 h1 h2 ht he hr hs
    have : r1 = r2 := by
      cases r1; cases r2
      simp_all
    rw [this]
  · intro r hr
    unfold Role.identifier
    rw [hr]

/-- C4 witness: the synthesized identifier of a concrete identifier-less
`Role`. -/
theorem role_identifier_synthesis_deterministic_witness :
    Role.identifier synthRole =
      "urn:shaclmate:object:" ++ Role.type ++ ":" ++
        sha256hex (synthRole.hash []) :=
  role_identifier_synthesis_deterministic.2 synthRole rfl

/-! ## Claim C5 -/

/-- C5: hashing is stable — `Person.hash` feeds the hasher exactly the
update sequence determined by the field values, in the declared field order
(`updateSequence`), so two `Person` values with identical field values feed
fresh hashers identical sequences of `update` calls; the same holds for
`Thing.hash` on the inherited fields. -/
theorem person_hash_stable :
    (∀ (p : Person) (h : List String), p.hash h = h ++ p.updateSequence) ∧
    (∀ (t : ThingFields) (h : List String),
      t.hash h = h ++ t.updateSequence) ∧
    (∀ p q : Person, p.toThingFields = q.toThingFields →
      p.birthDate = q.birthDate → p.familyName = q.familyName →
      p.gender = q.gender → p.givenName = q.givenName →
      p.hasOccupation = q.hasOccupation → p.identifier = q.identifier →
      p.images = q.images → p.memberOf = q.memberOf →
      p.hash [] = q.hash []) := by
  refine ⟨personHash_eq, thingHash_eq, ?_⟩
  intro p q h1 h2 h3 h4 h5 h6 h7 h8 h9
  have : p = q := by
    cases p; cases q
    simp_all
  rw [this]

/-- C5 witness: the hash input sequence of a concrete `Person`, and stability
at that `Person`. -/
theorem person_hash_stable_witness :
    samplePerson.hash [] = [] ++ samplePerson.updateSequence ∧
      samplePerson.hash [] = samplePerson.hash [] :=
  ⟨person_hash_stable.1 samplePerson [],
    person_hash_stable.2.2 samplePerson samplePerson rfl rfl rfl rfl rfl rfl
      rfl rfl rfl⟩

/-! ## Claim C10 -/

/-- C10: array-valued property comparison is order-insensitive rather than
positional: `arrayEquals l r eq` returns `Equal` if and only if `l` and `r`
have the same length and every element of `l` is `eq`-equal to at least one
element of `r`; consequently permuting the right array never changes an
`Equal` result, and the relation is not symmetric in general when arrays
contain duplicate elements (witnessed by `["a", "a"]` vs `["a", "b"]`). -/
theorem arrayEquals_membership_characterization :
    (∀ (α : Type) (l r : List α) (eq : α → α → EqualsResult),
      arrayEquals l r eq = EqualsResult.Equal ↔
        (l.length = r.length ∧ ∀ x ∈ l, ∃ y ∈ r, (eq x y).isOk = true)) ∧
    (∀ (α : Type) (l r r' : List α) (eq : α → α → EqualsResult),
      r.Perm r' → arrayEquals l r eq = EqualsResult.Equal →
        arrayEquals l r' eq = EqualsResult.Equal) ∧
    (arrayEquals ["a", "a"] ["a", "b"] strictEqualsStr = EqualsResult.Equal ∧
      arrayEquals ["a", "b"] ["a", "a"] strictEqualsStr ≠
        EqualsResult.Equal) := by
  refine ⟨fun α l r eq => arrayEquals_eq_ok_iff l r eq,
    fun α l r r' eq => arrayEquals_perm_right l r r' eq, ?_, ?_⟩ <;> decide

/-- C10 witness: the characterization applied at a concrete instance. -/
theorem arrayEquals_membership_characterization_witness :
    arrayEquals ["x", "y"] ["y", "x"] strictEqualsStr = EqualsResult.Equal :=
  (arrayEquals_membership_characterization.1 String
    ["x", "y"] ["y", "x"] strictEqualsStr).mpr (by decide)

/-! ## Claim C7 -/

/-- C7: for every concrete class's `toRdf` (`Person`, `Role`, `Occupation`,
`QuantitiveValue`, `ImageObject`), calling it with `ignoreRdfType` false adds
exactly one `rdf:type` triple naming the class's schema.org URI on the
produced resource's subject, and calling it with `ignoreRdfType` true adds
none; the supertype serialization (`Thing.toRdf`, which every subclass calls
with `ignoreRdfType: true`) contributes no `rdf:type` triple at all, for
either value of its flag. -/
theorem toRdf_rdf_type_triples :
    (∀ (p : Person) (ig : Bool) (g : Graph),
      countTypeTriples (Person.toRdf p ig g).1 p.identifier
        "http://schema.org/Person" =
        countTypeTriples g p.identifier "http://schema.org/Person" +
          (if ig then 0 else 1)) ∧
    (∀ (r : Role) (ig : Bool) (g : Graph),
      countTypeTriples (Role.toRdf r ig g).1 r.identifier
        "http://schema.org/Role" =
        countTypeTriples g r.identifier "http://schema.org/Role" +
          (if ig then 0 else 1)) ∧
    (∀ (o : Occupation) (ig : Bool) (g : Graph),
      countTypeTriples (Occupation.toRdf o ig g).1 o.identifier
        "http://schema.org/Occupation" =
        countTypeTriples g o.identifier "http://schema.org/Occupation" +
          (if ig then 0 else 1)) ∧
    (∀ (q : QuantitiveValue) (ig : Bool) (g : Graph),
      countTypeTriples (QuantitiveValue.toRdf q ig g).1 q.identifier
        "http://schema.org/QuantitativeValue" =
        countTypeTriples g q.identifier "http://schema.org/QuantitativeValue"
          + (if ig then 0 else 1)) ∧
    (∀ (i : ImageObject) (ig : Bool) (g : Graph),
      countTypeTriples (ImageObject.toRdf i ig g).1 i.identifier
        "http://schema.org/ImageObject" =
        countTypeTriples g i.identifier "http://schema.org/ImageObject" +
          (if ig then 0 else 1)) ∧
    (∀ (t : ThingFields) (s : String) (ig : Bool),
      typeTripleCount (thingToRdf t s ig) = 0) :=
  ⟨ctt_person_toRdf_self, ctt_role_toRdf_self, ctt_occupation_toRdf_self,
    ctt_qv_toRdf_self, ctt_imageObject_toRdf_self, ttc_thingToRdf⟩

/-! ## Claim C8 -/

/-- C8: polymorphic `hasOccupation` values are resolved in a fixed preference
order.  Over RDF (`decodeOccupationOrRoleRdf`, the element decode used by
`Person.fromRdf`): when the `Occupation` decoder succeeds its result is
taken, and only when it fails is the `Role` decoder consulted; since
`Occupation.fromRdf` with `ignoreRdfType: true` accepts any named node, the
decode of a named-node value always yields the `Occupation` branch.  Over
JSON (`decodeOccupationOrRoleItem`, the element decode used by
`Person.fromJson`): the decoder is selected by the value's `type`
discriminant — `"Role"` dispatches to `Role.fromJson`, any other string to
`Occupation.fromJson`. -/
theorem hasOccupation_decoder_preference :
    (∀ (g : Graph) (t : RdfTerm) (res : Occupation ⊕ Role),
      ((toNamedResourceE t).bind fun iri =>
        (Occupation.fromRdf g iri true).map Sum.inl) = .ok res →
      decodeOccupationOrRoleRdf g t = .ok res) ∧
    (∀ (g : Graph) (t : RdfTerm) (e : ValueError),
      ((toNamedResourceE t).bind fun iri =>
        (Occupation.fromRdf g iri true).map Sum.inl) =
        (.error e : Except ValueError (Occupation ⊕ Role)) →
      decodeOccupationOrRoleRdf g t =
        ((toNamedResourceE t).bind fun iri =>
          (Role.fromRdf g iri true).map Sum.inr)) ∧
    (∀ (g : Graph) (iri : String),
      decodeOccupationOrRoleRdf g (.namedNode iri) =
        .ok (.inl
          { toThingFields := thingFromRdf g iri,
            identifier := iri })) ∧
    (∀ j : Json, j.get "type" = some (.str "Role") →
      decodeOccupationOrRoleItem j =
        (unsafeCoerceE (Role.fromJson j)).map .inr) ∧
    (∀ (j : Json) (s : String), j.get "type" = some (.str s) →
      (s == "Role") = false →
      decodeOccupationOrRoleItem j =
        (unsafeCoerceE (Occupation.fromJson j)).map .inl) := by
  refine ⟨?_, ?_, ?_, ?_, ?_⟩
  · intro g t res h
    simp [decodeOccupationOrRoleRdf, exceptOrElse, h]
  · intro g t e h
    simp [decodeOccupationOrRoleRdf, exceptOrElse, h]
  · intro g iri
    simp [decodeOccupationOrRoleRdf, exceptOrElse, toNamedResourceE, toIriE,
      Occupation.fromRdf, Except.bind, Except.map]
  · intro j hg
    unfold decodeOccupationOrRoleItem
    rw [hg]
    simp
  · intro j s hg hs
    unfold decodeOccupationOrRoleItem
    rw [hg]
    simp [hs]

/-- C8 witness: the preference order observed at concrete inputs — a bare
named node decodes as an `Occupation` over RDF, and the JSON `type`
discriminants `"Role"` / `"Occupation"` select the respective decoders. -/
theorem hasOccupation_decoder_preference_witness :
    decodeOccupationOrRoleRdf [] (.namedNode "urn:x") =
      .ok (.inl
        { toThingFields := thingFromRdf [] "urn:x",
          identifier := "urn:x" }) ∧
    decodeOccupationOrRoleItem (Json.obj [("type", Json.str "Role")]) =
      (unsafeCoerceE
        (Role.fromJson (Json.obj [("type", Json.str "Role")]))).map .inr ∧
    decodeOccupationOrRoleItem (Json.obj [("type", Json.str "Occupation")]) =
      (unsafeCoerceE
        (Occupation.fromJson
          (Json.obj [("type", Json.str "Occupation")]))).map .inl :=
  ⟨hasOccupation_decoder_preference.2.2.1 [] "urn:x",
    hasOccupation_decoder_preference.2.2.2.1 _ rfl,
    hasOccupation_decoder_preference.2.2.2.2 _ "Occupation" rfl (by decide)⟩

/-! ## Claim C6 -/

/-- C6: decoding never throws; failures surface as the `Left` branch of the
either-style result holding a structured error.  Over JSON, `Person.fromJson`
and `ImageObject.fromJson` (the two decoders whose nested `hasOccupation` /
`images` / `height` / `width` elements go through `unsafeCoerce` after the
outer schema parse, modelled by the outer `Option` exception channel) return
`some` result on every input: a structured `ZodError` exactly when the zod
schema check rejects the input, and a decoded value when it accepts it — the
nested `unsafeCoerce` calls never fire an exception.  Over RDF,
`Person.fromRdf` returns the structured resource-value error
`unexpectedRdfType` exactly when the subject lacks the `schema:Person` type,
and a decoded value otherwise. -/
theorem fromJson_fromRdf_total_structured_errors :
    (∀ j : Json,
      (∃ r, Person.fromJson j = some r) ∧
      (personJsonZodSchemaCheck j = false →
        Person.fromJson j = some (.error .schemaViolation)) ∧
      (personJsonZodSchemaCheck j = true →
        ∃ p, Person.fromJson j = some (.ok p))) ∧
    (∀ j : Json,
      (∃ r, ImageObject.fromJson j = some r) ∧
      (imageObjectJsonZodSchemaCheck j = false →
        ImageObject.fromJson j = some (.error .schemaViolation)) ∧
      (imageObjectJsonZodSchemaCheck j = true →
        ∃ i, ImageObject.fromJson j = some (.ok i))) ∧
    (∀ (g : Graph) (s : String),
      (isInstanceOf g s "http://schema.org/Person" = false →
        Person.fromRdf g s false =
          .error (.unexpectedRdfType s "http://schema.org/Person")) ∧
      (isInstanceOf g s "http://schema.org/Person" = true →
        ∃ p, Person.fromRdf g s false = .ok p)) := by
  have himgErr : ∀ j : Json, imageObjectJsonZodSchemaCheck j = false →
      ImageObject.fromJson j = some (.error .schemaViolation) := by
    intro j h
    unfold ImageObject.fromJson
    rw [if_pos h]
  refine ⟨fun j => ⟨?_, (person_fromJson_total j).1,
      (person_fromJson_total j).2⟩,
    fun j => ⟨?_, himgErr j, fun h => imageObject_fromJson_ok_of_check h⟩,
    fun g s => ⟨?_, ?_⟩⟩
  · by_cases hc : personJsonZodSchemaCheck j = true
    · obtain ⟨p, hp⟩ := (person_fromJson_total j).2 hc
      exact ⟨.ok p, hp⟩
    · have hf : personJsonZodSchemaCheck j = false := by
        revert hc; cases personJsonZodSchemaCheck j <;> simp
      exact ⟨.error .schemaViolation, (person_fromJson_total j).1 hf⟩
  · by_cases hc : imageObjectJsonZodSchemaCheck j = true
    · obtain ⟨i, hi⟩ := imageObject_fromJson_ok_of_check hc
      exact ⟨.ok i, hi⟩
    · have hf : imageObjectJsonZodSchemaCheck j = false := by
        revert hc; cases imageObjectJsonZodSchemaCheck j <;> simp
      exact ⟨.error .schemaViolation, himgErr j hf⟩
  · intro hb
    simp [Person.fromRdf, hb]
  · intro hb
    have heq : Person.fromRdf g s false = .ok
        { toThingFields := thingFromRdf g s,
          birthDate := readOpt g s "http://schema.org/birthDate" toDateE,
          familyName := readOpt g s "http://schema.org/familyName" toStringE,
          gender := readOpt g s "http://schema.org/gender" (fun t => .ok t),
          givenName := readOpt g s "http://schema.org/givenName" toStringE,
          hasOccupation :=
            (valuesFor g s "http://schema.org/hasOccupation").flatMap fun t =>
              ((decodeOccupationOrRoleRdf g t).toOption).toList,
          identifier := s,
          images :=
            (valuesFor g s "http://schema.org/image").flatMap fun t =>
              (((toNamedResourceE t).bind fun iri =>
                ImageObject.fromRdf g iri true).toOption).toList,
          memberOf := readList g s "http://schema.org/memberOf" toIriE } := by
      unfold Person.fromRdf
      rw [if_neg (by rw [hb]; exact fun hc => Bool.noConfusion hc)]
    exact ⟨_, heq⟩

/-- C6 witness: a `null` JSON input yields the structured schema error from
both decoders rather than a throw, and a subject carrying the
`schema:Person` type decodes successfully from RDF. -/
theorem fromJson_fromRdf_total_structured_errors_witness :
    Person.fromJson Json.null = some (.error .schemaViolation) ∧
    ImageObject.fromJson Json.null = some (.error .schemaViolation) ∧
    (∃ p, Person.fromRdf
      [⟨"urn:p", rdfTypeIri, .namedNode "http://schema.org/Person"⟩]
      "urn:p" false = .ok p) :=
  ⟨(fromJson_fromRdf_total_structured_errors.1 Json.null).2.1 (by decide),
    (fromJson_fromRdf_total_structured_errors.2.1 Json.null).2.1 (by decide),
    (fromJson_fromRdf_total_structured_errors.2.2
      [⟨"urn:p", rdfTypeIri, .namedNode "http://schema.org/Person"⟩]
      "urn:p").2 (by decide)⟩

/-! ## Claim C9 -/

/-- One instance-property declaration of a class body in the source, with
its `readonly` / `private` modifiers. -/
structure PropertyDecl where
  className : String
  propertyName : String
  readonlyDecl : Bool
  privateDecl : Bool
deriving DecidableEq, Repr

/-- Every instance-property declaration of every class body in the source,
in declaration order (inherited properties are listed only in the declaring
class). -/
def propertyDecls : List PropertyDecl :=
  [⟨"Thing", "description", true, false⟩,
   ⟨"Thing", "identifier", true, false⟩,
   ⟨"Thing", "identifiers", true, false⟩,
   ⟨"Thing", "name", true, false⟩,
   ⟨"Thing", "sameAs", true, false⟩,
   ⟨"Thing", "type", true, false⟩,
   ⟨"Thing", "url", true, false⟩,
   ⟨"Intangible", "identifier", true, false⟩,
   ⟨"Intangible", "type", true, false⟩,
   ⟨"StructuredValue", "identifier", true, false⟩,
   ⟨"StructuredValue", "type", true, false⟩,
   ⟨"Role", "endDate", true, false⟩,
   ⟨"Role", "_identifier", false, true⟩,
   ⟨"Role", "roleName", true, false⟩,
   ⟨"Role", "startDate", true, false⟩,
   ⟨"Role", "type", true, false⟩,
   ⟨"Person", "birthDate", true, false⟩,
   ⟨"Person", "familyName", true, false⟩,
   ⟨"Person", "gender", true, false⟩,
   ⟨"Person", "givenName", true, false⟩,
   ⟨"Person", "hasOccupation", true, false⟩,
   ⟨"Person", "identifier", true, false⟩,
   ⟨"Person", "images", true, false⟩,
   ⟨"Person", "memberOf", false, false⟩,
   ⟨"Person", "type", true, false⟩,
   ⟨"Organization", "identifier", true, false⟩,
   ⟨"Organization", "members", false, false⟩,
   ⟨"Organization", "parentOrganizations", false, false⟩,
   ⟨"Organization", "subOrganizations", false, false⟩,
   ⟨"Organization", "type", true, false⟩,
   ⟨"Occupation", "identifier", true, false⟩,
   ⟨"Occupation", "type", true, false⟩,
   ⟨"QuantitiveValue", "identifier", true, false⟩,
   ⟨"QuantitiveValue", "type", true, false⟩,
   ⟨"QuantitiveValue", "value", true, false⟩,
   ⟨"CreativeWork", "identifier", true, false⟩,
   ⟨"CreativeWork", "isBasedOn", true, false⟩,
   ⟨"CreativeWork", "type", true, false⟩,
   ⟨"MediaObject", "contentUrl", true, false⟩,
   ⟨"MediaObject", "encodingFormat", true, false⟩,
   ⟨"MediaObject", "height", true, false⟩,
   ⟨"MediaObject", "identifier", true, false⟩,
   ⟨"MediaObject", "type", true, false⟩,
   ⟨"MediaObject", "width", true, false⟩,
   ⟨"ImageObject", "identifier", true, false⟩,
   ⟨"ImageObject", "type", true, false⟩,
   ⟨"Enumeration", "identifier", true, false⟩,
   ⟨"Enumeration", "type", true, false⟩,
   ⟨"GenderType", "identifier", true, false⟩,
   ⟨"GenderType", "type", true, false⟩]

/-- C9 counterexample: it is not the case that exactly two declared instance
properties lack `readonly` with both in a single class — the source declares
five non-`readonly` instance properties spread over three classes. -/
theorem mutable_properties_not_two_in_one_class :
    ¬(((propertyDecls.filter fun d => !d.readonlyDecl).length = 2) ∧
      ∀ d ∈ propertyDecls.filter (fun d => !d.readonlyDecl),
        ∀ d' ∈ propertyDecls.filter (fun d => !d.readonlyDecl),
          d.className = d'.className) := by decide

/-- C9 (amended): every declared instance property of every class is
`readonly` except five — the four mutable public properties
`Person.memberOf`, `Organization.members`,
`Organization.parentOrganizations` and `Organization.subOrganizations`
(so four public mutable properties across two classes, not two in one),
plus the private mutable cache `Role._identifier`. -/
theorem mutable_properties_enumeration :
    propertyDecls.filter (fun d => !d.readonlyDecl) =
      [⟨"Role", "_identifier", false, true⟩,
       ⟨"Person", "memberOf", false, false⟩,
       ⟨"Organization", "members", false, false⟩,
       ⟨"Organization", "parentOrganizations", false, false⟩,
       ⟨"Organization", "subOrganizations", false, false⟩] ∧
    propertyDecls.filter (fun d => !d.readonlyDecl && !d.privateDecl) =
      [⟨"Person", "memberOf", false, false⟩,
       ⟨"Organization", "members", false, false⟩,
       ⟨"Organization", "parentOrganizations", false, false⟩,
       ⟨"Organization", "subOrganizations", false, false⟩] := by decide

end Generated
